import Mathlib

/-!
Verification development for the hybrid lexical retrieval engine of
StdvBot (`src/rag_engine.py`).  The Python module is shallowly embedded:
pure text manipulation becomes computable Lean functions on `String` /
`List Char`, floating point scores become real numbers, `dict` /
`Counter` become association lists or functions, and the mutable
`RAGSystem` object becomes an explicit state record transformed by the
operations.  The possibly non-terminating overlap-splitting loop is
given explicit fuel and returns `Option`.
-/

namespace StdvBot

/-! ### Python string primitives

`str.strip`, `str.lower`, `re.findall(r'\w+', ...)`, `str.isdigit`,
slicing and `str.rfind` with integer bounds, modelled character by
character.  Python's `\w` and `str.lower` are Unicode aware; this
embedding covers the ASCII and Cyrillic ranges, which include every
character occurring in the repository's corpora, queries and synonym
table. -/

/-- Characters Python's `str.strip()` and `\s` treat as whitespace
(ASCII range). -/
def pyIsSpace (c : Char) : Bool :=
  c == ' ' || c == '\t' || c == '\n' || c == '\r' || c == '\x0b' || c == '\x0c'

/-- Strip whitespace from both ends of a character list (`str.strip()`). -/
def pyStripList (cs : List Char) : List Char :=
  ((cs.dropWhile pyIsSpace).reverse.dropWhile pyIsSpace).reverse

/-- Strip whitespace from both ends of a string (`str.strip()`). -/
def pyStrip (s : String) : String :=
  (pyStripList s.toList).asString

/-- Cyrillic block U+0400..U+04FF (covers А..я and Ё/ё). -/
def isCyrillic (c : Char) : Bool :=
  decide (0x400 ≤ c.toNat ∧ c.toNat ≤ 0x4FF)

/-- A word character for `re.findall(r'\w+', ...)`: ASCII alphanumerics,
underscore, or a Cyrillic letter. -/
def pyWordChar (c : Char) : Bool :=
  c.isAlphanum || c == '_' || isCyrillic c

/-- Lower-case one character the way `str.lower()` does on ASCII
letters, on А..Я (U+0410..U+042F, shifted by 0x20) and on Ё (U+0401
mapped to U+0451). -/
def pyLowerChar (c : Char) : Char :=
  if decide ('A' ≤ c ∧ c ≤ 'Z') then Char.ofNat (c.toNat + 0x20)
  else if decide (0x410 ≤ c.toNat ∧ c.toNat ≤ 0x42F) then Char.ofNat (c.toNat + 0x20)
  else if c == 'Ё' then 'ё'
  else c

/-- Lower-case a string (`str.lower()`). -/
def pyLower (s : String) : String :=
  (s.toList.map pyLowerChar).asString

/-- Cut a character list into the maximal runs of word characters, in
order; `cur` holds the current run reversed. -/
def wordRunsAux : List Char → List Char → List (List Char)
  | [], cur => if cur.isEmpty then [] else [cur.reverse]
  | c :: cs, cur =>
    if pyWordChar c then wordRunsAux cs (c :: cur)
    else if cur.isEmpty then wordRunsAux cs []
    else cur.reverse :: wordRunsAux cs []

/-- The word tokens of a string: `re.findall(r'\w+', s)`. -/
def pyWords (s : String) : List String :=
  (wordRunsAux s.toList []).map List.asString

/-- Python's `str.isdigit()` on the word tokens produced here (which are
never empty): every character is an ASCII digit. -/
def pyIsDigit (s : String) : Bool :=
  s.toList.all Char.isDigit

/-! ### Tokenizer

`BM25Index._tokenize` and `TFIDFIndex._tokenize` are two textually
identical methods in the source; both are embedded, separately, so that
their identity can be stated as a theorem. -/

/-- Tokenizer of the probabilistic index (`BM25Index._tokenize`):
lowercase `\w+` tokens with tokens of length ≤ 1 or purely numeric
discarded. -/
def bm25Tokenize (s : String) : List String :=
  (pyWords (pyLower s)).filter (fun w => decide (1 < w.length) && !(pyIsDigit w))

/-- Tokenizer of the vector-space index (`TFIDFIndex._tokenize`), same
body as `bm25Tokenize`. -/
def tfidfTokenize (s : String) : List String :=
  (pyWords (pyLower s)).filter (fun w => decide (1 < w.length) && !(pyIsDigit w))

/-! ### Documents -/

/-- The metadata dictionary attached to a chunk.  The source only ever
stores the keys `section` and `is_subchunk`; `metadata.get("section",
"")` is `(section.getD "")`. -/
structure PyMetadata where
  sectionLabel : Option String
  subchunkFlag : Bool
deriving DecidableEq, Repr

/-- A document chunk (`Document` dataclass). -/
structure Document where
  content : String
  doc_id : String
  metadata : PyMetadata
  source : String
  chunk_index : Nat
deriving DecidableEq, Repr

/-- Stand-in for the first eight hex digits of `hashlib.md5`; document
ids never influence retrieval, so the digest is modelled as an
uninterpreted constant rather than by embedding MD5. -/
def md5hex8 : String → String := fun _ => "h"

/-- Generate a document id (`RAGSystem._generate_doc_id`). -/
def genDocId (content : String) (index : Nat) : String :=
  "doc_" ++ toString index ++ "_" ++ md5hex8 content

/-- Default document used for (unreachable) out-of-range list access,
where Python would raise `IndexError`. -/
def defaultDoc : Document := ⟨"", "", ⟨none, false⟩, "", 0⟩

/-! ### Stable descending sort

Python's `list.sort(key=..., reverse=True)` is a stable descending sort
on the key.  `List.insertionSort` with `key b ≤ key a` inserts each
earlier element in front of equal keys, which reproduces that
stability. -/

/-- Stable sort in descending key order (`sorted(..., key=..., reverse=True)`). -/
noncomputable def sortDesc {α : Type} (key : α → ℝ) (l : List α) : List α :=
  l.insertionSort (fun a b => key b ≤ key a)

/-! ### The probabilistic index (`BM25Index`) -/

/-- Mutable state of `BM25Index`.  `term_freqs` stores each document's
token list; the Python `Counter` for document `i` is recovered as
`List.count` on that list (`term in tf` is list membership, `tf[term]`
is the count).  `doc_freqs` is the `defaultdict(int)`. -/
structure BM25State where
  k1 : ℝ
  b : ℝ
  documents : List Document
  doc_lengths : List Nat
  avg_doc_length : ℝ
  doc_freqs : String → Nat
  term_freqs : List (List String)
  corpus_size : Nat
  vocabulary : Finset String

/-- A freshly constructed `BM25Index(k1, b)`. -/
def freshBM25 (k1 b : ℝ) : BM25State :=
  ⟨k1, b, [], [], 0, fun _ => 0, [], 0, ∅⟩

/-- Rebuild the index from a document list
(`BM25Index.index_documents`).  Faithful to the source: `term_freqs`,
`doc_lengths`, `corpus_size` and (for a nonempty corpus)
`avg_doc_length` are recomputed from scratch, but `doc_freqs` and
`vocabulary` are only ever incremented — the source never resets the
`defaultdict`. -/
noncomputable def bm25IndexDocuments (s : BM25State) (docs : List Document) : BM25State :=
  let toks := docs.map (fun d => bm25Tokenize d.content)
  { s with
    documents := docs
    corpus_size := docs.length
    term_freqs := toks
    doc_lengths := toks.map List.length
    doc_freqs := fun t => s.doc_freqs t + toks.countP (fun dt => dt.contains t)
    vocabulary := s.vocabulary ∪ toks.foldl (fun acc dt => acc ∪ dt.toFinset) ∅
    avg_doc_length :=
      if docs.length = 0 then s.avg_doc_length
      else ((toks.map List.length).sum : ℝ) / (docs.length : ℝ) }

/-- IDF with smoothing (`BM25Index._idf`): `0` for an unseen term, else
`ln((N - df + 0.5) / (df + 0.5) + 1)`. -/
noncomputable def bm25IDF (s : BM25State) (t : String) : ℝ :=
  if s.doc_freqs t = 0 then 0
  else Real.log (((s.corpus_size : ℝ) - (s.doc_freqs t : ℝ) + 0.5) /
    ((s.doc_freqs t : ℝ) + 0.5) + 1)

/-- BM25 score of a query against document `doc_index`
(`BM25Index.score`).  The loop over the query's token list (duplicates
included) skips terms absent from the document and otherwise adds
`idf * (f*(k1+1)) / (f + k1*(1 - b + b*|D|/avgdl))`. -/
noncomputable def bm25Score (s : BM25State) (query : String) (doc_index : Nat) : ℝ :=
  let qt := bm25Tokenize query
  if qt = [] then 0
  else
    let tf := s.term_freqs.getD doc_index []
    let dl : ℝ := (s.doc_lengths.getD doc_index 0 : ℝ)
    qt.foldl (fun acc term =>
      if term ∈ tf then
        acc + bm25IDF s term * ((tf.count term : ℝ) * (s.k1 + 1)) /
          ((tf.count term : ℝ) + s.k1 * (1 - s.b + s.b * dl / s.avg_doc_length))
      else acc) 0

/-- Top-k search (`BM25Index.search`): score every document, keep
strictly positive scores, stable-sort descending, truncate. -/
noncomputable def bm25Search (s : BM25State) (query : String) (top_k : Nat) :
    List (Nat × ℝ) :=
  let scores := (List.range s.corpus_size).filterMap (fun i =>
    if 0 < bm25Score s query i then some (i, bm25Score s query i) else none)
  (sortDesc (fun p => p.2) scores).take top_k

/-! ### The vector-space index (`TFIDFIndex`) -/

/-- Deduplicate keeping the first occurrence of each element, in
encounter order — the key order of a Python `Counter` built from a
list. -/
def firstDedupAux {α : Type} [DecidableEq α] (seen : List α) : List α → List α
  | [] => []
  | a :: l => if a ∈ seen then firstDedupAux seen l else a :: firstDedupAux (a :: seen) l

/-- Deduplicate keeping first occurrences. -/
def firstDedup {α : Type} [DecidableEq α] (l : List α) : List α :=
  firstDedupAux [] l

/-- Mutable state of `TFIDFIndex`.  A TF-IDF vector (Python `Counter`
of floats) is an association list with pairwise distinct keys in
insertion order; `idf_scores` is the dict, `none` meaning the key is
absent. -/
structure TFIDFState where
  documents : List Document
  tfidf_vectors : List (List (String × ℝ))
  idf_scores : String → Option ℝ
  vocabulary : Finset String

/-- A freshly constructed `TFIDFIndex()`. -/
def freshTFIDF : TFIDFState :=
  ⟨[], [], fun _ => none, ∅⟩

/-- Value of a TF-IDF vector at a key, 0 when absent (`Counter`
lookup). -/
noncomputable def vecAt (v : List (String × ℝ)) (k : String) : ℝ :=
  ((v.find? (fun p => p.1 == k)).map Prod.snd).getD 0

/-- Rebuild the vector-space index (`TFIDFIndex.index_documents`).
Document frequencies are local to the build, but `idf_scores` entries of
terms absent from the new corpus persist from earlier builds (the dict
is updated, not replaced), as does `vocabulary`. -/
noncomputable def tfidfIndexDocuments (s : TFIDFState) (docs : List Document) : TFIDFState :=
  let toks := docs.map (fun d => tfidfTokenize d.content)
  let n := docs.length
  let df : String → Nat := fun t => toks.countP (fun dt => dt.contains t)
  let idf : String → Option ℝ := fun t =>
    if toks.any (fun dt => dt.contains t) then
      some (Real.log ((n : ℝ) / (1 + (df t : ℝ))) + 1)
    else s.idf_scores t
  { documents := docs
    idf_scores := idf
    tfidf_vectors := toks.map (fun dt =>
      (firstDedup dt).map (fun t => (t, (dt.count t : ℝ) * (idf t).getD 0)))
    vocabulary := s.vocabulary ∪ toks.foldl (fun acc dt => acc ∪ dt.toFinset) ∅ }

/-- Cosine similarity between two sparse vectors
(`TFIDFIndex._cosine_similarity`): 0 when the key sets are disjoint or
the denominator is zero. -/
noncomputable def cosineSim (v1 v2 : List (String × ℝ)) : ℝ :=
  let inter := (v1.map Prod.fst).filter (fun k => (v2.map Prod.fst).contains k)
  if inter = [] then 0
  else
    let num := (inter.map (fun k => vecAt v1 k * vecAt v2 k)).sum
    let s1 := (v1.map (fun p => p.2 ^ 2)).sum
    let s2 := (v2.map (fun p => p.2 ^ 2)).sum
    let den := Real.sqrt s1 * Real.sqrt s2
    if den = 0 then 0 else num / den

/-- Top-k search (`TFIDFIndex.search`): empty query yields `[]`; the
query vector uses `idf_scores.get(term, 1.0)`; positive cosine scores
are kept, stable-sorted descending, truncated. -/
noncomputable def tfidfSearch (s : TFIDFState) (query : String) (top_k : Nat) :
    List (Nat × ℝ) :=
  let qt := tfidfTokenize query
  if qt = [] then []
  else
    let qv := (firstDedup qt).map (fun t => (t, (qt.count t : ℝ) * (s.idf_scores t).getD 1))
    let scores := s.tfidf_vectors.enum.filterMap (fun p =>
      if 0 < cosineSim qv p.2 then some (p.1, cosineSim qv p.2) else none)
    (sortDesc (fun p => p.2) scores).take top_k

/-! ### Query expansion (`QueryExpander`) -/

/-- The static synonym table (`QueryExpander.SYNONYMS`). -/
def SYNONYMS : List (String × List String) :=
  [("доставка", ["привезти", "привоз", "транспортировка"]),
   ("возврат", ["вернуть", "обмен", "сдать"]),
   ("цена", ["стоимость", "прайс", "сколько"]),
   ("скидка", ["акция", "распродажа", "дешевле"]),
   ("товар", ["продукт", "продукция", "изделие"]),
   ("покупка", ["заказ", "купить", "приобрести"]),
   ("оплата", ["платеж", "оплатить", "способ оплаты"]),
   ("магазин", ["склад", "точка", "филиал"]),
   ("гарантия", ["гарантийный", "warranty"]),
   ("бонус", ["баллы", "кэшбэк", "cashback"]),
   ("delivery", ["shipping", "ship", "transport"]),
   ("return", ["refund", "exchange", "money back"]),
   ("price", ["cost", "pricing", "rate"]),
   ("discount", ["sale", "promo", "offer"])]

/-- Synonym lookup in the table. -/
def synLookup (w : String) : Option (List String) :=
  (SYNONYMS.find? (fun p => p.1 == w)).map Prod.snd

/-- Expand a query with synonyms (`QueryExpander.expand`).  The source
collects the synonyms in a Python `set`, whose iteration order is
unspecified; the embedding fixes first-insertion order.  Every property
proved below is insensitive to that order (scoring sums over tokens). -/
def expandQuery (query : String) (max_terms : Nat) : String :=
  let words := pyWords (pyLower query)
  let expanded := firstDedup (words.foldl (fun acc w =>
    match synLookup w with
    | some syns => acc ++ syns.take max_terms
    | none => acc) [])
  if expanded.isEmpty then query
  else query ++ " " ++ String.intercalate " " expanded

/-! ### Configuration (`RAGConfig`) -/

/-- Tuning parameters (`RAGConfig` dataclass).  Float fields are reals;
`chunk_size`, `chunk_overlap` and the integer counters are naturals
(the source only ever supplies non-negative integers). -/
structure RAGConfig where
  bm25_k1 : ℝ
  bm25_b : ℝ
  chunk_size : Nat
  chunk_overlap : Nat
  min_score_threshold : ℝ
  default_top_k : Nat
  bm25_weight : ℝ
  tfidf_weight : ℝ
  enable_query_expansion : Bool
  max_expansion_terms : Nat
  enable_cache : Bool
  cache_size : Nat

/-- The reference defaults of `RAGConfig`. -/
def defaultRAGConfig : RAGConfig :=
  ⟨1.5, 0.75, 500, 100, 0.05, 3, 0.6, 0.4, true, 3, true, 100⟩

/-! ### Chunker

`RAGSystem._smart_chunk` splits on `re.split(r'\n(?=##)|(?:\n\n)', …)`,
detects headers with `re.match(r'^(#{1,3})\s*(.+)$', …, re.MULTILINE)`,
and splits oversized sections with `RAGSystem._split_with_overlap`,
whose `while` loop need not terminate (the window start does not always
advance); it therefore takes fuel and returns `Option`. -/

/-- Normalize one Python slice bound: negative indices count from the
end, then both are clamped to `[0, len]`. -/
def pySliceNorm (len : Nat) (i : Int) : Nat :=
  if i < 0 then (max 0 (len + i)).toNat else min i.toNat len

/-- Python slice `cs[a:b]` with integer bounds. -/
def pySlice (cs : List Char) (a b : Int) : List Char :=
  (cs.take (pySliceNorm cs.length b)).drop (pySliceNorm cs.length a)

/-- Python `text.rfind(c, a, b)` for a single character: the highest
index in the normalized range holding `c`, else `-1`. -/
def pyRfindChar (cs : List Char) (c : Char) (a b : Int) : Int :=
  let lo := pySliceNorm cs.length a
  let hi := pySliceNorm cs.length b
  match (((List.range hi).drop lo).filter (fun i => cs.getD i '\x00' == c)).getLast? with
  | some i => (i : Int)
  | none => -1

/-- The sentence-break characters tried, in order, by the chunker. -/
def breakChars : List Char := ['.', '!', '?', '\n']

/-- One run of the `while start < len(text)` loop of
`RAGSystem._split_with_overlap`, with explicit fuel; `none` means the
fuel ran out (the source loops forever on such inputs). -/
def splitOverlapAux (cs : List Char) (chunk_size overlap : Nat) :
    Int → Nat → Option (List String)
  | _, 0 => none
  | start, fuel + 1 =>
    if start < (cs.length : Int) then
      let e0 : Int := start + (chunk_size : Int)
      let e : Int :=
        if e0 < (cs.length : Int) then
          match breakChars.findSome? (fun c =>
            let bp := pyRfindChar cs c (start + ((chunk_size / 2 : Nat) : Int)) e0
            if start < bp then some (bp + 1) else none) with
          | some e1 => e1
          | none => e0
        else e0
      let chunk := pyStripList (pySlice cs start e)
      match splitOverlapAux cs chunk_size overlap (e - (overlap : Int)) fuel with
      | none => none
      | some l => some (if chunk.isEmpty then l else chunk.asString :: l)
    else some []

/-- `RAGSystem._split_with_overlap(text, chunk_size, overlap)` with
fuel. -/
def splitWithOverlap (fuel : Nat) (text : String) (chunk_size overlap : Nat) :
    Option (List String) :=
  splitOverlapAux text.toList chunk_size overlap 0 fuel

/-- Scan for `re.split(r'\n(?=##)|(?:\n\n)', text)`: at each position
the first alternative (`\n` followed by `##`, consuming one character)
is tried before the second (`\n\n`, consuming two). -/
def splitSectionsAux : List Char → List Char → List (List Char)
  | [], acc => [acc.reverse]
  | '\n' :: '#' :: '#' :: rest, acc => acc.reverse :: splitSectionsAux ('#' :: '#' :: rest) []
  | '\n' :: '\n' :: rest, acc => acc.reverse :: splitSectionsAux rest []
  | c :: rest, acc => splitSectionsAux rest (c :: acc)

/-- Split the corpus into sections. -/
def splitSections (text : String) : List String :=
  (splitSectionsAux text.toList []).map List.asString

/-- Group 2 of `re.match(r'^(#{1,3})\s*(.+)$', s, re.MULTILINE)`:
try the hash-run length from `min 3` down to 1 (greedy with
backtracking); after the hashes, `\s*` backtracks from its longest
match until `.+` can start on a non-newline character, and `.+` then
runs to the next newline or the end. -/
def matchHeaderG2 (s : String) : Option String :=
  let cs := s.toList
  let hr := (cs.takeWhile (fun c => c == '#')).length
  if hr = 0 then none
  else
    let tryK : Nat → Option (List Char) := fun k =>
      let rest := cs.drop k
      let w := (rest.takeWhile pyIsSpace).length
      match ((List.range (w + 1)).reverse.find? (fun j => !(rest.getD j '\n' == '\n'))) with
      | some j => some ((rest.drop j).takeWhile (fun c => !(c == '\n')))
      | none => none
    (((List.range (min hr 3)).reverse.map (· + 1)).findSome? tryK).map List.asString

/-- The loop body of `RAGSystem._smart_chunk`: walk the sections,
tracking the chunk counter and the current section label. -/
def smartChunkAux (cfg : RAGConfig) (kb_path : String) (fuel : Nat) :
    List String → Nat → String → Option (List Document)
  | [], _, _ => some []
  | sec :: rest, idx, cur =>
    let s := pyStrip sec
    if s = "" then smartChunkAux cfg kb_path fuel rest idx cur
    else
      let cur2 := match matchHeaderG2 s with
        | some g2 => pyStrip g2
        | none => cur
      if s.length ≤ cfg.chunk_size then
        (smartChunkAux cfg kb_path fuel rest (idx + 1) cur2).map
          (fun ds => ⟨s, genDocId s idx, ⟨some cur2, false⟩, kb_path, idx⟩ :: ds)
      else
        match splitWithOverlap fuel s cfg.chunk_size cfg.chunk_overlap with
        | none => none
        | some subs =>
          let docs := subs.enum.map (fun p =>
            (⟨p.2, genDocId p.2 (idx + p.1), ⟨some cur2, true⟩, kb_path, idx + p.1⟩ : Document))
          (smartChunkAux cfg kb_path fuel rest (idx + subs.length) cur2).map
            (fun ds => docs ++ ds)

/-- `RAGSystem._smart_chunk(text)` with fuel for the overlap loop. -/
def smartChunk (cfg : RAGConfig) (kb_path : String) (fuel : Nat) (text : String) :
    Option (List Document) :=
  smartChunkAux cfg kb_path fuel (splitSections text) 0 ""

/-! ### The retrieval engine (`RAGSystem`) -/

/-- A scored search result (`SearchResult` dataclass). -/
structure SearchResult where
  document : Document
  score : ℝ
  bm25_score : ℝ
  tfidf_score : ℝ
  keyword_matches : Nat

/-- Engine state: the mutable attributes of a `RAGSystem` instance.
The cache dict is an insertion-ordered association list. -/
structure RAGState where
  config : RAGConfig
  kb_path : String
  documents : List Document
  bm25 : BM25State
  tfidf : TFIDFState
  cache : List (String × List SearchResult)
  chunks : List String

/-- Key of a cache entry (`RAGSystem._get_cache_key`). -/
def cacheKey (query : String) (top_k : Nat) (method : String) : String :=
  query ++ ":" ++ toString top_k ++ ":" ++ method

/-- Dict lookup in the cache. -/
def cacheLookup (c : List (String × List SearchResult)) (key : String) :
    Option (List SearchResult) :=
  (c.find? (fun p => p.1 == key)).map Prod.snd

/-- Load and chunk the knowledge base (`RAGSystem.load_knowledge_base`
on a successful read; the file content is the `text` argument).  The
indexes are rebuilt only for a nonempty chunk list, and the cache is —
faithfully to the source — left untouched. -/
noncomputable def loadKnowledgeBase (st : RAGState) (text : String) (fuel : Nat) :
    Option RAGState :=
  (smartChunk st.config st.kb_path fuel text).map (fun docs =>
    { st with
      documents := docs
      bm25 := if docs.isEmpty then st.bm25 else bm25IndexDocuments st.bm25 docs
      tfidf := if docs.isEmpty then st.tfidf else tfidfIndexDocuments st.tfidf docs
      chunks := docs.map Document.content })

/-- Construct a `RAGSystem(kb_path, config)`: fresh indexes, empty
cache, then one load. -/
noncomputable def initRAG (cfg : RAGConfig) (kb_path text : String) (fuel : Nat) :
    Option RAGState :=
  loadKnowledgeBase
    ⟨cfg, kb_path, [], freshBM25 cfg.bm25_k1 cfg.bm25_b, freshTFIDF, [], []⟩ text fuel

/-- Keyword-match counter (`RAGSystem._count_keyword_matches`):
`len(set(re.findall(r'\w+', q.lower())) & set(re.findall(r'\w+',
c.lower())))` — note: no length or digit filtering. -/
def countKeywordMatches (query content : String) : Nat :=
  ((pyWords (pyLower query)).toFinset ∩ (pyWords (pyLower content)).toFinset).card

/-- Python's `top_k = top_k or self.config.default_top_k`: zero (or
`None`, encoded as zero) falls back to the default. -/
def effTopK (cfg : RAGConfig) (top_k : Nat) : Nat :=
  if top_k = 0 then cfg.default_top_k else top_k

/-- BM25 search method (`RAGSystem.search_bm25`): optional query
expansion, candidate pool `2×topK`, threshold filter, truncation.  The
keyword counter receives the (possibly expanded) query, as in the
source. -/
noncomputable def searchBM25 (st : RAGState) (query : String) (top_k : Nat) :
    List SearchResult :=
  let k := effTopK st.config top_k
  let q := if st.config.enable_query_expansion then
    expandQuery query st.config.max_expansion_terms else query
  let pairs := bm25Search st.bm25 q (k * 2)
  ((pairs.filter (fun p => st.config.min_score_threshold ≤ p.2)).map (fun p =>
    (⟨st.documents.getD p.1 defaultDoc, p.2, p.2, 0,
      countKeywordMatches q (st.documents.getD p.1 defaultDoc).content⟩ : SearchResult))).take k

/-- TF-IDF search method (`RAGSystem.search_tfidf`): no expansion,
pool `2×topK`, threshold filter, truncation. -/
noncomputable def searchTFIDF (st : RAGState) (query : String) (top_k : Nat) :
    List SearchResult :=
  let k := effTopK st.config top_k
  let pairs := tfidfSearch st.tfidf query (k * 2)
  ((pairs.filter (fun p => st.config.min_score_threshold ≤ p.2)).map (fun p =>
    (⟨st.documents.getD p.1 defaultDoc, p.2, 0, p.2,
      countKeywordMatches query (st.documents.getD p.1 defaultDoc).content⟩ : SearchResult))).take k

/-- Maximum of the scores of a candidate list, `1.0` when empty
(`max(d.values()) if d else 1.0`). -/
noncomputable def maxSnd (l : List (Nat × ℝ)) : ℝ :=
  match l with
  | [] => 1
  | p :: ps => (ps.map Prod.snd).foldl max p.2

/-- Score of a candidate list at an index, `0` when absent
(`d.get(idx, 0)`). -/
noncomputable def lookScore (l : List (Nat × ℝ)) (i : Nat) : ℝ :=
  ((l.find? (fun p => p.1 == i)).map Prod.snd).getD 0

/-- The compute branch of `RAGSystem.search_hybrid` (everything after
the cache check): both indexes over a `3×topK` pool (expanded query for
BM25, raw for TF-IDF), per-index max-normalization, weighted fusion
over the union of candidates, stable descending sort, threshold filter,
truncation, then cache insertion with oldest-entry eviction.  The union
is a Python `set` with unspecified iteration order; the embedding fixes
BM25-candidate order followed by the remaining TF-IDF candidates, and
the fused ranking is compared below against a specification pipeline
using the same enumeration. -/
noncomputable def hybridPipeline (st : RAGState) (query : String) (k : Nat) :
    List SearchResult × RAGState :=
  let key := cacheKey query k "hybrid"
  let eq := if st.config.enable_query_expansion then
    expandQuery query st.config.max_expansion_terms else query
  let bres := bm25Search st.bm25 eq (k * 3)
  let tres := tfidfSearch st.tfidf query (k * 3)
  let maxB := maxSnd bres
  let maxT := maxSnd tres
  let normB := fun i => if 0 < maxB then lookScore bres i / maxB else 0
  let normT := fun i => if 0 < maxT then lookScore tres i / maxT else 0
  let allIdx := bres.map Prod.fst ++
    ((tres.map Prod.fst).filter (fun i => !((bres.map Prod.fst).contains i)))
  let combined := allIdx.map (fun i =>
    (i, (st.config.bm25_weight * normB i + st.config.tfidf_weight * normT i,
         normB i, normT i)))
  let sorted := sortDesc (fun p => p.2.1) combined
  let results := ((sorted.filter (fun p => st.config.min_score_threshold ≤ p.2.1)).map
    (fun p => (⟨st.documents.getD p.1 defaultDoc, p.2.1, p.2.2.1, p.2.2.2,
      countKeywordMatches query (st.documents.getD p.1 defaultDoc).content⟩ : SearchResult))).take k
  let newCache :=
    if st.config.enable_cache then
      (if st.config.cache_size ≤ st.cache.length then st.cache.drop 1 else st.cache) ++
        [(key, results)]
    else st.cache
  (results, { st with cache := newCache })

/-- Hybrid search method (`RAGSystem.search_hybrid`): cached result
when caching is enabled and the key is present, otherwise the compute
branch. -/
noncomputable def searchHybrid (st : RAGState) (query : String) (top_k : Nat) :
    List SearchResult × RAGState :=
  let k := effTopK st.config top_k
  match (if st.config.enable_cache then cacheLookup st.cache (cacheKey query k "hybrid")
         else none) with
  | some cached => (cached, st)
  | none => hybridPipeline st query k

/-- Dispatch on the method string
(`RAGSystem.retrieve_with_scores`). -/
noncomputable def retrieveWithScores (st : RAGState) (query : String) (top_k : Nat)
    (method : String) : List SearchResult × RAGState :=
  if method = "bm25" then (searchBM25 st query top_k, st)
  else if method = "tfidf" then (searchTFIDF st query top_k, st)
  else searchHybrid st query top_k

/-- Format one result for the context string: a section hint when a
nonempty section label is present (`metadata.get("section", "")` is
falsy for both a missing key and the empty string). -/
def formatResult (r : SearchResult) : String :=
  match r.document.metadata.sectionLabel with
  | some s => if s = "" then r.document.content
    else "[Раздел: " ++ s ++ "]\n" ++ r.document.content
  | none => r.document.content

/-- Main retrieval method (`RAGSystem.retrieve`): empty string for an
empty corpus or empty result set, otherwise the formatted chunks joined
with the separator. -/
noncomputable def retrieve (st : RAGState) (query : String) (top_k : Nat)
    (method : String) : String × RAGState :=
  if st.documents.isEmpty then ("", st)
  else
    let rs := retrieveWithScores st query top_k method
    if rs.1.isEmpty then ("", rs.2)
    else (String.intercalate "\n---\n" (rs.1.map formatResult), rs.2)

/-- Dynamic insertion (`RAGSystem.add_document`): append the chunk,
fully rebuild both indexes from the extended list, clear the cache. -/
noncomputable def addDocument (st : RAGState) (content : String)
    (metadata : Option PyMetadata) : RAGState :=
  let idx := st.documents.length
  let doc : Document := ⟨content, genDocId content idx, metadata.getD ⟨none, false⟩,
    "dynamic", idx⟩
  let docs := st.documents ++ [doc]
  { st with
    documents := docs
    chunks := st.chunks ++ [content]
    bm25 := bm25IndexDocuments st.bm25 docs
    tfidf := tfidfIndexDocuments st.tfidf docs
    cache := [] }

/-- Substring test on character lists (used to state "the returned
string contains the chunk content"). -/
def hasSubstr (pat s : List Char) : Bool :=
  (List.range (s.length + 1)).any (fun i => List.isPrefixOf pat (s.drop i))

/-- Substring test on strings. -/
def strContains (pat s : String) : Bool :=
  hasSubstr pat.toList s.toList

/-! ### Specification-side definitions

These follow the wording of the specification / claims, to be compared
with the code-side embeddings above. -/

/-- The BM25 scoring formula exactly as the specification states it:
the sum, over the query's tokens that occur in the chunk, of
`IDF(t) * (freq(t,chunk)*(k1+1)) / (freq(t,chunk) + k1*(1 - b + b*|chunk|/avgLen))`
with `IDF(t) = ln((N - df(t) + 0.5)/(df(t) + 0.5) + 1)`, where `df(t)`
counts the chunks containing `t`, `|chunk|` is the chunk's token count
and `avgLen` the corpus average; absent terms contribute exactly 0. -/
noncomputable def specBM25Score (k1 b : ℝ) (docs : List Document) (query : String)
    (i : Nat) : ℝ :=
  let toks := docs.map (fun d => bm25Tokenize d.content)
  let ti := toks.getD i []
  ((bm25Tokenize query).map (fun t =>
    if t ∈ ti then
      Real.log (((docs.length : ℝ) -
          (docs.countP (fun d => (bm25Tokenize d.content).contains t) : ℝ) + 0.5) /
        ((docs.countP (fun d => (bm25Tokenize d.content).contains t) : ℝ) + 0.5) + 1) *
        ((ti.count t : ℝ) * (k1 + 1)) /
        ((ti.count t : ℝ) + k1 * (1 - b + b * (ti.length : ℝ) /
          (((toks.map List.length).sum : ℝ) / (docs.length : ℝ))))
    else 0)).sum

/-! ### Concrete scenario states -/

/-- Junk state used only as the (never-reached) default of
`Option.getD` on states that are proved to exist. -/
noncomputable def junkState : RAGState :=
  ⟨defaultRAGConfig, "", [], freshBM25 1.5 0.75, freshTFIDF, [], []⟩

noncomputable instance : Inhabited SearchResult := ⟨⟨defaultDoc, 0, 0, 0, 0⟩⟩

/-- The corpus of the specification's concrete scenario (claim C4). -/
def c4corpus : String :=
  "## Доставка\nСтоимость доставки 1500 рублей.\n\n## Возврат\nВозврат в течение 100 дней."

/-- The engine freshly loaded from `c4corpus` with the reference
defaults. -/
noncomputable def c4St : RAGState :=
  (initRAG defaultRAGConfig "kb" c4corpus 1).getD junkState

/-- The query "доставка" after the engine's synonym expansion. -/
def c4q : String := "доставка привезти привоз транспортировка"

/-- The first chunk produced from `c4corpus`. -/
def c4doc0 : Document :=
  ⟨"## Доставка\nСтоимость доставки 1500 рублей.", "doc_0_h", ⟨some "Доставка", false⟩, "kb", 0⟩

/-- The specification's hybrid pipeline at an effective topK (claim
C5's wording): run BM25 on the (optionally expanded) query and TF-IDF
on the raw query over a `3×topK` pool, normalize each index's candidate
scores by the guarded maximum (an empty or zero-max set contributing
0), fuse with the configured weights over the union of candidates, then
filter by the threshold, sort by descending fused score and truncate to
topK. -/
noncomputable def specHybridCore (st : RAGState) (query : String) (k : Nat) :
    List SearchResult :=
  let eq := if st.config.enable_query_expansion then
    expandQuery query st.config.max_expansion_terms else query
  let bres := bm25Search st.bm25 eq (k * 3)
  let tres := tfidfSearch st.tfidf query (k * 3)
  let normB := fun i => if 0 < maxSnd bres then lookScore bres i / maxSnd bres else 0
  let normT := fun i => if 0 < maxSnd tres then lookScore tres i / maxSnd tres else 0
  let allIdx := bres.map Prod.fst ++
    ((tres.map Prod.fst).filter (fun i => !((bres.map Prod.fst).contains i)))
  let fused := allIdx.map (fun i =>
    (i, (st.config.bm25_weight * normB i + st.config.tfidf_weight * normT i,
         normB i, normT i)))
  ((sortDesc (fun p => p.2.1)
      (fused.filter (fun p => st.config.min_score_threshold ≤ p.2.1))).take k).map
    (fun p => (⟨st.documents.getD p.1 defaultDoc, p.2.1, p.2.2.1, p.2.2.2,
      countKeywordMatches query (st.documents.getD p.1 defaultDoc).content⟩ : SearchResult))

/-- The specification's hybrid pipeline, with topK = 0 falling back to
the configured default as the code does. -/
noncomputable def specHybrid (st : RAGState) (query : String) (top_k : Nat) :
    List SearchResult :=
  specHybridCore st query (effTopK st.config top_k)

/-- Reachability invariant of the cache: every cached list holds only
results meeting the threshold and strictly positive; it holds of the
initial (empty) cache and is preserved by every operation. -/
def CacheOK (st : RAGState) : Prop :=
  ∀ e ∈ st.cache, ∀ r ∈ e.2, st.config.min_score_threshold ≤ r.score ∧ 0 < r.score

/-- The reference configuration with the two fusion weights and the
threshold replaced. -/
def cfgW (wb wt thr : ℝ) : RAGConfig :=
  { defaultRAGConfig with bm25_weight := wb, tfidf_weight := wt, min_score_threshold := thr }

/-- Engine loaded from the one-chunk corpus "привет мир" under
`cfgW wb wt thr`. -/
noncomputable def pmSt (wb wt thr : ℝ) : RAGState :=
  (initRAG (cfgW wb wt thr) "kb" "привет мир" 1).getD junkState

/-- The single chunk of that corpus. -/
def pmDoc : Document := ⟨"привет мир", "doc_0_h", ⟨some "", false⟩, "kb", 0⟩

/-- The TF-IDF idf weight stored for both terms of that corpus
(`ln(1/(1+1)) + 1`). -/
noncomputable def pmIdf : ℝ := Real.log (((1:Nat):ℝ) / (1 + ((1:Nat):ℝ))) + 1

/-- The TF-IDF query vector for the query "привет" on that engine. -/
noncomputable def pmQv : List (String × ℝ) := [("привет", ((1:Nat):ℝ) * pmIdf)]

/-- The TF-IDF document vector of the chunk "привет мир". -/
noncomputable def pmDv : List (String × ℝ) :=
  [("привет", ((1:Nat):ℝ) * pmIdf), ("мир", ((1:Nat):ℝ) * pmIdf)]

/-- The hybrid result the default-configured engine caches for the query
"привет". -/
noncomputable def c5Res : SearchResult := ⟨pmDoc, 0.6 * 1 + 0.4 * 1, 1, 1, 1⟩

/-- Its cache key. -/
def c5Key : String := cacheKey "привет" 1 "hybrid"

/-- State after one hybrid search on the default-configured engine (the
result is now cached). -/
noncomputable def c5StA2 : RAGState := (searchHybrid (pmSt 0.6 0.4 0.05) "привет" 1).2

/-- State after re-running the corpus load with the new corpus "совсем
другое"; the source does not clear the cache here. -/
noncomputable def c5StB : RAGState :=
  (loadKnowledgeBase c5StA2 "совсем другое" 1).getD junkState

/-- TF-IDF document vector of the chunk "совсем другое" after the
reload. -/
noncomputable def dvB : List (String × ℝ) :=
  [("совсем", ((1:Nat):ℝ) * pmIdf), ("другое", ((1:Nat):ℝ) * pmIdf)]

/-- The zero-score hybrid result produced under zero fusion weights. -/
noncomputable def c6Res : SearchResult := ⟨pmDoc, 0 * 1 + 0 * 1, 1, 1, 1⟩

/-- Engine loaded from the empty corpus (no chunks, fresh indexes). -/
noncomputable def c9emptySt : RAGState :=
  (initRAG defaultRAGConfig "kb" "" 1).getD junkState

/-- Engine loaded from a corpus containing the token xyz123. -/
noncomputable def c9St1 : RAGState :=
  (initRAG defaultRAGConfig "kb" "тест xyz123" 1).getD junkState

/-- The same corpus re-loaded once more (doc_freqs now double-counted). -/
noncomputable def c9St2 : RAGState :=
  (loadKnowledgeBase c9St1 "тест xyz123" 1).getD junkState

/-- A clean corpus loaded afterwards: no current chunk contains xyz123,
but the stale document frequency survives. -/
noncomputable def c9St3 : RAGState :=
  (loadKnowledgeBase c9St2 "чистый корпус" 1).getD junkState

/-- That engine after `addChunk("уникальная фраза XYZ123")`. -/
noncomputable def c9St4 : RAGState := addDocument c9St3 "уникальная фраза XYZ123" none

/-! ### General lemmas -/

theorem foldl_ite_add {α : Type} (p : α → Prop) [DecidablePred p] (g : α → ℝ) :
    ∀ (l : List α) (a : ℝ),
      l.foldl (fun acc x => if p x then acc + g x else acc) a =
        a + (l.map (fun x => if p x then g x else 0)).sum := by
  intro l
  induction l with
  | nil => intro a; simp
  | cons x xs ih =>
    intro a
    by_cases hx : p x <;> simp [hx, ih, add_assoc]

theorem getD_map_lt {α β : Type} (f : α → β) (l : List α) (i : Nat) (d : β) (d0 : α)
    (hi : i < l.length) : (l.map f).getD i d = f (l.getD i d0) := by
  simp [List.getD_eq_getElem?_getD, List.getElem?_map, List.getElem?_eq_getElem hi]

theorem eq_some_getD {α : Type} (o : Option α) (d : α) (h : o.isSome = true) :
    o = some (o.getD d) := by
  cases o
  · simp at h
  · simp

theorem log_two_ge_half : (1:ℝ)/2 ≤ Real.log 2 := by
  have h := Real.log_le_sub_one_of_pos (show (0:ℝ) < 1/2 by norm_num)
  have h2 : Real.log (1/2) = -Real.log 2 := by
    rw [show (1:ℝ)/2 = 2⁻¹ by norm_num, Real.log_inv]
  linarith

/-! ### Claim C1 -/

/-- Claim C1 (code bug): `index_documents` never resets the
`doc_freqs` defaultdict, so the full rebuild triggered by
`add_document` double-counts.  Concretely: load the one-chunk corpus
"ab ab", then `add_document("ab cd")`.  After the rebuild the stored
document frequency of the term "ab" is 3, although only 2 of the 2
chunks contain it — the stored value exceeds the corpus size, violating
the claimed invariant `doc_freqs[t] = |{chunks containing t}|`. -/
theorem C1_doc_freqs_accumulate_across_rebuilds :
    ((initRAG defaultRAGConfig "kb" "ab ab" 1).map (fun st =>
      ((addDocument st "ab cd" none).bm25.doc_freqs "ab",
       (addDocument st "ab cd" none).bm25.corpus_size,
       (addDocument st "ab cd" none).documents.countP
         (fun d => (bm25Tokenize d.content).contains "ab")))) = some (3, 2, 2) := by
  decide

/-! ### Claim C2 -/

theorem splitOverlap_ab_stuck :
    ∀ fuel : Nat, splitOverlapAux ['a', 'b'] 1 1 0 fuel = none := by
  intro fuel
  induction fuel with
  | zero => rfl
  | succ n ih =>
    rw [splitOverlapAux]
    norm_num [show (List.findSome? (fun c =>
      if 0 < pyRfindChar ['a', 'b'] c 0 1 then some (pyRfindChar ['a', 'b'] c 0 1 + 1)
      else none) breakChars) = none from by decide]
    rw [ih]

/-- Claim C2 (code bug): the overlap-splitting loop does NOT always
terminate.  With `chunk_size = 1`, `chunk_overlap = 1` and the text
"ab", the window start is recomputed as `end - overlap = 1 - 1 = 0` on
every iteration, so the start never advances and no amount of fuel
makes the loop finish — contradicting the claimed structural
termination for every `chunk_size > 0` and every `chunk_overlap`
(including `chunk_overlap ≥ chunk_size`). -/
theorem C2_overlap_window_can_stall :
    ∀ fuel : Nat, splitWithOverlap fuel "ab" 1 1 = none := by
  intro fuel
  exact splitOverlap_ab_stuck fuel

/-! ### Claim C3 -/

/-- Claim C3 (confirmed): for an index built by `index_documents` from
a corpus (starting from a fresh index, so the stored document
frequencies equal the true per-corpus chunk counts), the BM25 score of
every query against every in-range chunk equals the specification's
formula, with absent query terms contributing exactly zero. -/
theorem C3_bm25_score_matches_spec_formula (k1 b : ℝ) (docs : List Document)
    (query : String) (i : Nat) (hi : i < docs.length) :
    bm25Score (bm25IndexDocuments (freshBM25 k1 b) docs) query i =
      specBM25Score k1 b docs query i := by
  have hdf : ∀ t, (bm25IndexDocuments (freshBM25 k1 b) docs).doc_freqs t =
      docs.countP (fun d => (bm25Tokenize d.content).contains t) := by
    intro t
    simp [bm25IndexDocuments, freshBM25, List.countP_map, Function.comp_def]
  have htoks : (bm25IndexDocuments (freshBM25 k1 b) docs).term_freqs =
      docs.map (fun d => bm25Tokenize d.content) := rfl
  have hN : (bm25IndexDocuments (freshBM25 k1 b) docs).corpus_size = docs.length := rfl
  have hk : (bm25IndexDocuments (freshBM25 k1 b) docs).k1 = k1 := rfl
  have hb : (bm25IndexDocuments (freshBM25 k1 b) docs).b = b := rfl
  have hlen0 : docs.length ≠ 0 := by omega
  have havg : (bm25IndexDocuments (freshBM25 k1 b) docs).avg_doc_length =
      (((docs.map (fun d => bm25Tokenize d.content)).map List.length).sum : ℝ) /
        (docs.length : ℝ) := by
    simp [bm25IndexDocuments, freshBM25, hlen0]
  have hdl : (bm25IndexDocuments (freshBM25 k1 b) docs).doc_lengths.getD i 0 =
      ((docs.map (fun d => bm25Tokenize d.content)).getD i []).length := by
    show ((docs.map (fun d => bm25Tokenize d.content)).map List.length).getD i 0 = _
    exact getD_map_lt List.length _ i 0 [] (by simpa using hi)
  rw [bm25Score, specBM25Score]
  by_cases hq : bm25Tokenize query = []
  · simp [hq]
  · simp only [hq, if_neg, htoks, hk, hb, havg, hdl]
    rw [foldl_ite_add]
    rw [zero_add]
    apply congrArg List.sum
    apply List.map_congr_left
    intro t ht
    by_cases hmem : t ∈ (docs.map (fun d => bm25Tokenize d.content)).getD i []
    · rw [if_pos hmem, if_pos hmem]
      have hdfpos : 0 < docs.countP (fun d => (bm25Tokenize d.content).contains t) := by
        rw [List.countP_pos_iff]
        have hgd : docs.getD i defaultDoc = docs[i] := List.getD_eq_getElem docs defaultDoc hi
        refine ⟨docs.getD i defaultDoc, by rw [hgd]; exact List.getElem_mem hi, ?_⟩
        have hx : (docs.map (fun d => bm25Tokenize d.content)).getD i [] =
            bm25Tokenize (docs.getD i defaultDoc).content :=
          getD_map_lt (fun d => bm25Tokenize d.content) docs i [] defaultDoc hi
        rw [hx] at hmem
        simpa using hmem
      rw [bm25IDF, hdf t, hN, if_neg (by omega)]
    · rw [if_neg hmem, if_neg hmem]

/-- Document used to instantiate witnesses at a concrete input. -/
def wDoc : Document := ⟨"ab", "d", ⟨none, false⟩, "", 0⟩

/-- Witness for C3 at the one-chunk corpus ["ab"], query "ab", chunk
index 0; the in-range hypothesis is discharged by `decide`. -/
theorem C3_bm25_score_matches_spec_formula_witness :
    bm25Score (bm25IndexDocuments (freshBM25 1.5 0.75) [wDoc]) "ab" 0 =
      specBM25Score 1.5 0.75 [wDoc] "ab" 0 :=
  C3_bm25_score_matches_spec_formula 1.5 0.75 [wDoc] "ab" 0 (by decide)

/-! ### Claim C4 -/

theorem c4_score0 : bm25Score c4St.bm25 c4q 0 = Real.log 2 := by
  rw [bm25Score]
  rw [show bm25Tokenize c4q = ["доставка", "привезти", "привоз", "транспортировка"] from
    by decide]
  rw [if_neg (by decide)]
  rw [show c4St.bm25.term_freqs = [["доставка", "стоимость", "доставки", "рублей"],
    ["возврат", "возврат", "течение", "дней"]] from by decide]
  rw [show c4St.bm25.doc_lengths = [4, 4] from by decide]
  simp only [List.getD]
  simp [List.foldl, bm25IDF]
  rw [show c4St.bm25.doc_freqs "доставка" = 1 from by decide]
  rw [show c4St.bm25.corpus_size = 2 from by decide]
  rw [show c4St.bm25.k1 = (1.5:ℝ) from rfl]
  rw [show c4St.bm25.b = (0.75:ℝ) from rfl]
  rw [show c4St.bm25.avg_doc_length = ((8:Nat):ℝ)/((2:Nat):ℝ) from rfl]
  norm_num

theorem c4_score1 : bm25Score c4St.bm25 c4q 1 = 0 := by
  rw [bm25Score]
  rw [show bm25Tokenize c4q = ["доставка", "привезти", "привоз", "транспортировка"] from
    by decide]
  rw [if_neg (by decide)]
  rw [show c4St.bm25.term_freqs = [["доставка", "стоимость", "доставки", "рублей"],
    ["возврат", "возврат", "течение", "дней"]] from by decide]
  simp only [List.getD]
  simp [List.foldl]

theorem c4_bm25Search : bm25Search c4St.bm25 c4q 2 = [(0, Real.log 2)] := by
  rw [bm25Search]
  rw [show c4St.bm25.corpus_size = 2 from by decide]
  rw [show List.range 2 = [0, 1] from by decide]
  simp only [List.filterMap_cons, List.filterMap_nil]
  rw [if_pos (show (0:ℝ) < bm25Score c4St.bm25 c4q 0 from by
    rw [c4_score0]; exact Real.log_pos (by norm_num))]
  rw [if_neg (show ¬ (0:ℝ) < bm25Score c4St.bm25 c4q 1 from by
    rw [c4_score1]; exact lt_irrefl 0)]
  rw [c4_score0]
  simp [sortDesc, List.insertionSort, List.orderedInsert]

theorem c4_searchBM25 :
    searchBM25 c4St "доставка" 1 = [⟨c4doc0, Real.log 2, Real.log 2, 0, 1⟩] := by
  have hthr : c4St.config.min_score_threshold ≤ Real.log 2 := by
    show (0.05:ℝ) ≤ Real.log 2
    have := log_two_ge_half
    linarith
  rw [searchBM25]
  rw [show (if c4St.config.enable_query_expansion then
      expandQuery "доставка" c4St.config.max_expansion_terms else "доставка") = c4q from
    by decide]
  rw [show effTopK c4St.config 1 = 1 from by decide]
  rw [c4_bm25Search]
  simp only [List.filter_cons, List.filter_nil]
  rw [if_pos (decide_eq_true_iff.mpr hthr)]
  simp only [List.map_cons, List.map_nil]
  rw [show c4St.documents.getD 0 defaultDoc = c4doc0 from by decide]
  rw [show countKeywordMatches c4q c4doc0.content = 1 from by decide]
  simp

/-- Claim C4 (confirmed): on the engine freshly loaded from the
reference two-section corpus with default configuration,
`retrieveWithScores("доставка", 1, "bm25")` returns exactly one result;
its chunk content contains "1500 рублей" and its section metadata is
"Доставка". -/
theorem C4_concrete_scenario_delivery :
    initRAG defaultRAGConfig "kb" c4corpus 1 = some c4St ∧
    (retrieveWithScores c4St "доставка" 1 "bm25").1.length = 1 ∧
    strContains "1500 рублей"
      ((retrieveWithScores c4St "доставка" 1 "bm25").1.headI.document.content) = true ∧
    (retrieveWithScores c4St "доставка" 1 "bm25").1.headI.document.metadata.sectionLabel =
      some "Доставка" := by
  have hrw : (retrieveWithScores c4St "доставка" 1 "bm25").1 =
      [⟨c4doc0, Real.log 2, Real.log 2, 0, 1⟩] := by
    rw [retrieveWithScores, if_pos rfl]
    exact c4_searchBM25
  refine ⟨?_, ?_, ?_, ?_⟩
  · exact eq_some_getD _ junkState (by decide)
  · rw [hrw]; rfl
  · rw [hrw]; decide
  · rw [hrw]; rfl

/-! ### Claim C8 -/

/-- Claim C8 (counterexample): the keyword-match counter does not use
the shared filtering tokenizer.  For query "100" and content "100" the
counter reports 1 (raw `\w+` word sets intersect in {"100"}), while the
intersection of the shared tokenizer's outputs is empty (purely numeric
tokens are discarded), so the claimed value would be 0. -/
theorem C8_keyword_counter_counterexample :
    countKeywordMatches "100" "100" = 1 ∧
    ((bm25Tokenize "100").toFinset ∩ (bm25Tokenize "100").toFinset).card = 0 := by
  constructor <;> decide

/-- Claim C8 (amended): both indexes do share the identical filtering
tokenizer, but `_count_keyword_matches` uses the raw lowercase `\w+`
word extraction without the length/digit filter: `keyword_matches`
equals the size of the intersection of the two UNFILTERED word sets. -/
theorem C8_keyword_counter_amended :
    (∀ s, bm25Tokenize s = tfidfTokenize s) ∧
    ∀ q c, countKeywordMatches q c =
      ((pyWords (pyLower q)).filter
        (fun w => (pyWords (pyLower c)).contains w)).dedup.length := by
  constructor
  · intro s; rfl
  · intro q c
    rw [countKeywordMatches]
    have hset : (pyWords (pyLower q)).toFinset ∩ (pyWords (pyLower c)).toFinset =
        ((pyWords (pyLower q)).filter
          (fun w => (pyWords (pyLower c)).contains w)).toFinset := by
      ext x
      simp [List.mem_filter, List.elem_iff]
    rw [hset, List.card_toFinset]

/-! ### Claim C10 -/

/-- Claim C10 (confirmed): in any state produced by `index_documents`
(over any prior index state), whenever a term occurs in some in-range
chunk's term-frequency table — the only situation in which `score`
divides by `avg_doc_length` — the average document length is strictly
positive, so the division is never a division by zero and scoring is
total. -/
theorem C10_avg_doc_length_positive_when_scored (s0 : BM25State) (docs : List Document)
    (i : Nat) (t : String) (hi : i < docs.length)
    (hmem : t ∈ (bm25IndexDocuments s0 docs).term_freqs.getD i []) :
    0 < (bm25IndexDocuments s0 docs).avg_doc_length := by
  have htoks : (bm25IndexDocuments s0 docs).term_freqs =
      docs.map (fun d => bm25Tokenize d.content) := rfl
  rw [htoks] at hmem
  have hx : (docs.map (fun d => bm25Tokenize d.content)).getD i [] =
      bm25Tokenize (docs.getD i defaultDoc).content :=
    getD_map_lt (fun d => bm25Tokenize d.content) docs i [] defaultDoc hi
  rw [hx] at hmem
  have hlenpos : 1 ≤ (bm25Tokenize (docs.getD i defaultDoc).content).length :=
    List.length_pos.mpr (List.ne_nil_of_mem hmem)
  have hsum : 1 ≤ ((docs.map (fun d => bm25Tokenize d.content)).map List.length).sum := by
    have hmm : (bm25Tokenize (docs.getD i defaultDoc).content).length ∈
        (docs.map (fun d => bm25Tokenize d.content)).map List.length := by
      rw [← hx]
      have hlt : i < ((docs.map (fun d => bm25Tokenize d.content))).length := by simpa using hi
      have hg : ((docs.map (fun d => bm25Tokenize d.content))).getD i [] =
          ((docs.map (fun d => bm25Tokenize d.content)))[i] :=
        List.getD_eq_getElem _ [] hlt
      rw [hg]
      exact List.mem_map_of_mem List.length (List.getElem_mem hlt)
    calc 1 ≤ (bm25Tokenize (docs.getD i defaultDoc).content).length := hlenpos
    _ ≤ _ := List.le_sum_of_mem hmm
  have hlen0 : docs.length ≠ 0 := by omega
  have havg : (bm25IndexDocuments s0 docs).avg_doc_length =
      (((docs.map (fun d => bm25Tokenize d.content)).map List.length).sum : ℝ) /
        (docs.length : ℝ) := by
    simp [bm25IndexDocuments, hlen0]
  rw [havg]
  apply div_pos
  · exact_mod_cast Nat.lt_of_lt_of_le Nat.zero_lt_one hsum
  · exact_mod_cast Nat.pos_of_ne_zero hlen0

/-- Witness for C10 at the one-chunk corpus ["ab"], term "ab", index 0;
both hypotheses are discharged by `decide`. -/
theorem C10_avg_doc_length_positive_when_scored_witness :
    0 < (bm25IndexDocuments (freshBM25 1.5 0.75) [wDoc]).avg_doc_length :=
  C10_avg_doc_length_positive_when_scored (freshBM25 1.5 0.75) [wDoc] 0 "ab"
    (by decide) (by decide)

/-! ### Stable sorting commutes with filtering

Python's stable sort followed by the threshold filter equals filtering
first and then sorting, which is the order the specification's pipeline
wording uses. -/

theorem orderedInsert_eq_cons {α : Type} (r : α → α → Prop) [DecidableRel r] (a : α)
    (l : List α) (h : ∀ x ∈ l, r a x) : List.orderedInsert r a l = a :: l := by
  cases l with
  | nil => rfl
  | cons b l => exact if_pos (h b (List.mem_cons_self b l))

theorem filter_orderedInsert {α : Type} (r : α → α → Prop) [DecidableRel r]
    (htr : ∀ a b c, r a b → r b c → r a c) (p : α → Bool) (a : α) :
    ∀ l : List α, l.Pairwise r →
      (List.orderedInsert r a l).filter p =
        if p a then List.orderedInsert r a (l.filter p) else l.filter p := by
  intro l
  induction l with
  | nil =>
    intro _
    by_cases hp : p a <;> simp [List.orderedInsert, List.filter, hp]
  | cons b l ih =>
    intro hpw
    have hb : ∀ x ∈ l, r b x := (List.pairwise_cons.mp hpw).1
    have hl : l.Pairwise r := (List.pairwise_cons.mp hpw).2
    by_cases hr : r a b
    · rw [List.orderedInsert, if_pos hr]
      by_cases hp : p a
      · have hall : ∀ x ∈ (b :: l).filter p, r a x := by
          intro x hx
          have hx2 := List.mem_of_mem_filter hx
          rcases List.mem_cons.mp hx2 with h1 | h2
          · rw [h1]; exact hr
          · exact htr a b x hr (hb x h2)
        rw [if_pos hp, orderedInsert_eq_cons r a _ hall]
        simp [List.filter, hp]
      · rw [if_neg hp]
        simp [List.filter, hp]
    · rw [List.orderedInsert, if_neg hr]
      by_cases hpb : p b
      · simp only [List.filter_cons, hpb, if_true]
        rw [ih hl]
        by_cases hp : p a
        · rw [if_pos hp, if_pos hp, List.orderedInsert, if_neg hr]
        · rw [if_neg hp, if_neg hp]
      · simp only [List.filter_cons, hpb, if_false]
        exact ih hl

theorem filter_insertionSort {α : Type} (r : α → α → Prop) [DecidableRel r]
    (htot : ∀ a b, r a b ∨ r b a) (htr : ∀ a b c, r a b → r b c → r a c)
    (p : α → Bool) (l : List α) :
    (l.insertionSort r).filter p = (l.filter p).insertionSort r := by
  haveI : IsTotal α r := ⟨htot⟩
  haveI : IsTrans α r := ⟨htr⟩
  induction l with
  | nil => rfl
  | cons x xs ih =>
    rw [List.insertionSort]
    rw [filter_orderedInsert r htr p x (xs.insertionSort r)
      (List.sorted_insertionSort r xs)]
    by_cases hp : p x
    · rw [if_pos hp, ih, List.filter_cons_of_pos (by exact hp), List.insertionSort]
    · rw [if_neg hp, ih, List.filter_cons_of_neg (by simpa using hp)]

theorem sortDesc_filter {α : Type} (key : α → ℝ) (p : α → Bool) (l : List α) :
    (sortDesc key l).filter p = sortDesc key (l.filter p) := by
  rw [sortDesc, sortDesc]
  exact filter_insertionSort _ (fun a b => le_total (key b) (key a))
    (fun a b c hab hbc => le_trans hbc hab) p l

/-! ### Claim C5 -/

theorem hybridPipeline_spec (st : RAGState) (q : String) (k : Nat) :
    (hybridPipeline st q k).1 = specHybridCore st q k := by
  simp only [hybridPipeline, specHybridCore]
  rw [sortDesc_filter]
  rw [List.map_take]

/-- Claim C5 (amended): whenever the hybrid cache holds no entry for the
query's key (caching disabled or a cache miss — in particular whenever
the cache was invalidated on the last corpus change), `search_hybrid`
computes exactly the claimed pipeline: both indexes over a `3×topK`
pool (expanded query for BM25, raw for TF-IDF), guarded max
normalization to [0,1], weighted fusion over the union of candidates,
threshold filter, stable descending sort, truncation to topK (with
topK = 0 falling back to `default_top_k`).  On a cache hit the code
instead returns the cached list verbatim, which the counterexample
shows can differ from the pipeline after a corpus reload. -/
theorem C5_searchHybrid_computes_fused_pipeline (st : RAGState) (q : String)
    (top_k : Nat) (hmiss : st.config.enable_cache = false ∨
      cacheLookup st.cache (cacheKey q (effTopK st.config top_k) "hybrid") = none) :
    (searchHybrid st q top_k).1 = specHybrid st q top_k := by
  rw [searchHybrid]
  have hnone : (if st.config.enable_cache then
      cacheLookup st.cache (cacheKey q (effTopK st.config top_k) "hybrid")
    else none) = none := by
    rcases hmiss with h | h
    · rw [h]; rfl
    · by_cases hc : st.config.enable_cache <;> simp [hc, h]
  rw [hnone]
  exact hybridPipeline_spec st q (effTopK st.config top_k)

theorem pmIdf_eq : pmIdf = 1 - Real.log 2 := by
  rw [pmIdf]
  push_cast
  rw [show (1:ℝ)/(1+1) = 2⁻¹ by norm_num, Real.log_inv]
  ring

theorem pmIdf_pos : 0 < pmIdf := by
  rw [pmIdf_eq]
  have := Real.log_two_lt_d9
  linarith

theorem pm_score0 (wb wt thr : ℝ) :
    bm25Score (pmSt wb wt thr).bm25 "привет" 0 = Real.log (4/3) := by
  rw [bm25Score]
  rw [show bm25Tokenize "привет" = ["привет"] from by decide]
  rw [if_neg (by decide)]
  rw [show (pmSt wb wt thr).bm25.term_freqs = [["привет", "мир"]] from rfl]
  rw [show (pmSt wb wt thr).bm25.doc_lengths = [2] from rfl]
  simp only [List.getD]
  simp [List.foldl, bm25IDF]
  rw [show (pmSt wb wt thr).bm25.doc_freqs "привет" = 1 from rfl]
  rw [show (pmSt wb wt thr).bm25.corpus_size = 1 from rfl]
  rw [show (pmSt wb wt thr).bm25.k1 = (1.5:ℝ) from rfl]
  rw [show (pmSt wb wt thr).bm25.b = (0.75:ℝ) from rfl]
  rw [show (pmSt wb wt thr).bm25.avg_doc_length = ((2:Nat):ℝ)/((1:Nat):ℝ) from rfl]
  norm_num

theorem pm_cos_pos : 0 < cosineSim pmQv pmDv := by
  rw [cosineSim]
  rw [show (pmQv.map Prod.fst).filter
      (fun k => (pmDv.map Prod.fst).contains k) = ["привет"] from rfl]
  rw [if_neg (by simp)]
  have hI : ((1:Nat):ℝ) * pmIdf = pmIdf := by push_cast; ring
  have hq : vecAt pmQv "привет" = ((1:Nat):ℝ) * pmIdf := rfl
  have hd : vecAt pmDv "привет" = ((1:Nat):ℝ) * pmIdf := rfl
  simp only [List.map_cons, List.map_nil, List.sum_cons, List.sum_nil, hq, hd, hI]
  have hIpos := pmIdf_pos
  have hden : (0:ℝ) < Real.sqrt (pmIdf ^ 2 + 0) * Real.sqrt (pmIdf ^ 2 + (pmIdf ^ 2 + 0)) := by
    apply mul_pos <;> apply Real.sqrt_pos.mpr <;> positivity
  rw [show pmQv = [("привет", ((1:Nat):ℝ) * pmIdf)] from rfl]
  rw [show pmDv = [("привет", ((1:Nat):ℝ) * pmIdf), ("мир", ((1:Nat):ℝ) * pmIdf)] from rfl]
  simp only [List.map_cons, List.map_nil, List.sum_cons, List.sum_nil, hI]
  rw [if_neg (ne_of_gt hden)]
  apply div_pos
  · positivity
  · exact hden

theorem pm_bm25Search (wb wt thr : ℝ) :
    bm25Search (pmSt wb wt thr).bm25 "привет" 3 = [(0, Real.log (4/3))] := by
  rw [bm25Search]
  rw [show (pmSt wb wt thr).bm25.corpus_size = 1 from rfl]
  rw [show List.range 1 = [0] from by decide]
  simp only [List.filterMap_cons, List.filterMap_nil]
  rw [if_pos (show (0:ℝ) < bm25Score (pmSt wb wt thr).bm25 "привет" 0 from by
    rw [pm_score0]; exact Real.log_pos (by norm_num))]
  rw [pm_score0]
  simp [sortDesc, List.insertionSort, List.orderedInsert]

theorem pm_tfidfSearch (wb wt thr : ℝ) :
    tfidfSearch (pmSt wb wt thr).tfidf "привет" 3 = [(0, cosineSim pmQv pmDv)] := by
  have h0 : tfidfSearch (pmSt wb wt thr).tfidf "привет" 3 =
      (sortDesc (fun p => p.2) (List.filterMap (fun p =>
        if 0 < cosineSim pmQv p.2 then some (p.1, cosineSim pmQv p.2) else none)
        ([((0:Nat), pmDv)]))).take 3 := rfl
  rw [h0]
  simp only [List.filterMap_cons, List.filterMap_nil]
  rw [if_pos (show (0:ℝ) < cosineSim pmQv ((0:Nat), pmDv).2 from pm_cos_pos)]
  simp [sortDesc, List.insertionSort, List.orderedInsert]

theorem pm_hybridPipeline (wb wt thr : ℝ) (hthr : thr ≤ wb * 1 + wt * 1) :
    hybridPipeline (pmSt wb wt thr) "привет" 1 =
      ([⟨pmDoc, wb * 1 + wt * 1, 1, 1, 1⟩],
       { pmSt wb wt thr with cache :=
         [(cacheKey "привет" 1 "hybrid", [⟨pmDoc, wb * 1 + wt * 1, 1, 1, 1⟩])] }) := by
  have hlog : (0:ℝ) < Real.log (4/3) := Real.log_pos (by norm_num)
  have hnB : (if 0 < maxSnd [((0:Nat), Real.log (4/3))] then
      lookScore [((0:Nat), Real.log (4/3))] 0 / maxSnd [((0:Nat), Real.log (4/3))]
    else 0) = 1 := by
    rw [show maxSnd [((0:Nat), Real.log (4/3))] = Real.log (4/3) from by simp [maxSnd]]
    rw [if_pos hlog]
    rw [show lookScore [((0:Nat), Real.log (4/3))] 0 = Real.log (4/3) from by simp [lookScore]]
    exact div_self (ne_of_gt hlog)
  have hnT : (if 0 < maxSnd [((0:Nat), cosineSim pmQv pmDv)] then
      lookScore [((0:Nat), cosineSim pmQv pmDv)] 0 / maxSnd [((0:Nat), cosineSim pmQv pmDv)]
    else 0) = 1 := by
    rw [show maxSnd [((0:Nat), cosineSim pmQv pmDv)] = cosineSim pmQv pmDv from
      by simp [maxSnd]]
    rw [if_pos pm_cos_pos]
    rw [show lookScore [((0:Nat), cosineSim pmQv pmDv)] 0 = cosineSim pmQv pmDv from
      by simp [lookScore]]
    exact div_self (ne_of_gt pm_cos_pos)
  simp only [hybridPipeline]
  rw [show (if (pmSt wb wt thr).config.enable_query_expansion then
      expandQuery "привет" (pmSt wb wt thr).config.max_expansion_terms
    else "привет") = "привет" from rfl]
  rw [show (1 * 3 : Nat) = 3 from rfl]
  rw [pm_bm25Search wb wt thr, pm_tfidfSearch wb wt thr]
  rw [show ([((0:Nat), Real.log (4/3))].map Prod.fst) ++
      ((([((0:Nat), cosineSim pmQv pmDv)].map Prod.fst)).filter
        (fun i => !(([((0:Nat), Real.log (4/3))].map Prod.fst).contains i))) = [0] from by
    simp]
  simp only [List.map_cons, List.map_nil]
  rw [hnB, hnT]
  rw [show sortDesc (fun p => p.2.1)
      [((0:Nat), ((pmSt wb wt thr).config.bm25_weight * 1 +
        (pmSt wb wt thr).config.tfidf_weight * 1, (1:ℝ), (1:ℝ)))] =
      [((0:Nat), ((pmSt wb wt thr).config.bm25_weight * 1 +
        (pmSt wb wt thr).config.tfidf_weight * 1, (1:ℝ), (1:ℝ)))] from by
    simp [sortDesc, List.insertionSort, List.orderedInsert]]
  simp only [List.filter_cons, List.filter_nil]
  rw [if_pos (show decide ((pmSt wb wt thr).config.min_score_threshold ≤
      (((0:Nat), ((pmSt wb wt thr).config.bm25_weight * 1 +
        (pmSt wb wt thr).config.tfidf_weight * 1, (1:ℝ), (1:ℝ)))).2.1) = true from by
    rw [decide_eq_true_iff]
    show thr ≤ wb * 1 + wt * 1
    exact hthr)]
  simp only [List.map_cons, List.map_nil, List.take]
  rw [show (pmSt wb wt thr).documents.getD 0 defaultDoc = pmDoc from rfl]
  rw [show countKeywordMatches "привет" pmDoc.content = 1 from by decide]
  rfl

theorem c5_searchHybrid_A :
    searchHybrid (pmSt 0.6 0.4 0.05) "привет" 1 =
      ([c5Res], { pmSt 0.6 0.4 0.05 with cache := [(c5Key, [c5Res])] }) := by
  rw [searchHybrid]
  rw [show (if (pmSt 0.6 0.4 0.05).config.enable_cache then
      cacheLookup (pmSt 0.6 0.4 0.05).cache
        (cacheKey "привет" (effTopK (pmSt 0.6 0.4 0.05).config 1) "hybrid")
    else none) = none from rfl]
  rw [show effTopK (pmSt 0.6 0.4 0.05).config 1 = 1 from rfl]
  exact pm_hybridPipeline 0.6 0.4 0.05 (by norm_num)

theorem c5_stA2_cache : c5StA2.cache = [(c5Key, [c5Res])] := by
  rw [c5StA2, c5_searchHybrid_A]

theorem c5_load_B : loadKnowledgeBase c5StA2 "совсем другое" 1 = some c5StB :=
  eq_some_getD _ junkState rfl

theorem c5_stB_cache : c5StB.cache = [(c5Key, [c5Res])] := by
  have h : c5StB.cache = c5StA2.cache := rfl
  rw [h, c5_stA2_cache]

theorem c5_cached_return :
    searchHybrid c5StB "привет" 1 = ([c5Res], c5StB) := by
  have hsc : (if c5StB.config.enable_cache then
      cacheLookup c5StB.cache (cacheKey "привет" (effTopK c5StB.config 1) "hybrid")
    else none) = some [c5Res] := by
    have h1 : (if c5StB.config.enable_cache then
        cacheLookup c5StB.cache (cacheKey "привет" (effTopK c5StB.config 1) "hybrid")
      else none) = cacheLookup c5StB.cache c5Key := rfl
    rw [h1, c5_stB_cache]
    rfl
  rw [searchHybrid, hsc]

theorem c5_scoreB0 : bm25Score c5StB.bm25 "привет" 0 = 0 := by
  rw [bm25Score]
  rw [show bm25Tokenize "привет" = ["привет"] from by decide]
  rw [if_neg (by decide)]
  rw [show c5StB.bm25.term_freqs = [["совсем", "другое"]] from rfl]
  simp only [List.getD]
  simp [List.foldl]

theorem c5_bm25B : bm25Search c5StB.bm25 "привет" 3 = [] := by
  rw [bm25Search]
  rw [show c5StB.bm25.corpus_size = 1 from rfl]
  rw [show List.range 1 = [0] from by decide]
  simp only [List.filterMap_cons, List.filterMap_nil]
  rw [if_neg (show ¬ (0:ℝ) < bm25Score c5StB.bm25 "привет" 0 from by
    rw [c5_scoreB0]; exact lt_irrefl 0)]
  simp [sortDesc, List.insertionSort]

theorem c5_tfidfB : tfidfSearch c5StB.tfidf "привет" 3 = [] := by
  have h0 : tfidfSearch c5StB.tfidf "привет" 3 =
      (sortDesc (fun p => p.2) (List.filterMap (fun p =>
        if 0 < cosineSim pmQv p.2 then some (p.1, cosineSim pmQv p.2) else none)
        ([((0:Nat), dvB)]))).take 3 := rfl
  rw [h0]
  simp only [List.filterMap_cons, List.filterMap_nil]
  rw [if_neg (show ¬ (0:ℝ) < cosineSim pmQv (((0:Nat), dvB)).2 from by
    rw [show cosineSim pmQv (((0:Nat), dvB)).2 = 0 from rfl]; exact lt_irrefl 0)]
  simp [sortDesc, List.insertionSort]

theorem c5_specHybrid_B : specHybrid c5StB "привет" 1 = [] := by
  rw [specHybrid, specHybridCore]
  rw [show effTopK c5StB.config 1 = 1 from rfl]
  rw [show (if c5StB.config.enable_query_expansion then
      expandQuery "привет" c5StB.config.max_expansion_terms
    else "привет") = "привет" from rfl]
  rw [show (1 * 3 : Nat) = 3 from rfl]
  rw [c5_bm25B, c5_tfidfB]
  simp [sortDesc, List.insertionSort]

/-- Claim C5 (counterexample): the claim fails for states holding a
stale cache.  Load "привет мир" with the reference defaults, run one
hybrid search for "привет" (caching its single result), then re-run the
corpus load with the corpus "совсем другое" (which does not clear the
cache).  Now `search_hybrid("привет", 1)` returns the cached chunk
"привет мир" — a chunk of the OLD corpus — although the claimed
pipeline over the current state returns the empty list. -/
theorem C5_stale_cache_counterexample :
    initRAG defaultRAGConfig "kb" "привет мир" 1 = some (pmSt 0.6 0.4 0.05) ∧
    loadKnowledgeBase c5StA2 "совсем другое" 1 = some c5StB ∧
    c5StB.chunks = ["совсем другое"] ∧
    ((searchHybrid c5StB "привет" 1).1).map (fun r => r.document.content) =
      ["привет мир"] ∧
    specHybrid c5StB "привет" 1 = [] := by
  refine ⟨eq_some_getD _ junkState rfl, c5_load_B, rfl, ?_, c5_specHybrid_B⟩
  rw [c5_cached_return]
  rfl

/-- Witness for the amended C5 on the freshly loaded engine (empty
cache, so the miss hypothesis holds by computation). -/
theorem C5_searchHybrid_computes_fused_pipeline_witness :
    (searchHybrid (pmSt 0.6 0.4 0.05) "привет" 1).1 =
      specHybrid (pmSt 0.6 0.4 0.05) "привет" 1 :=
  C5_searchHybrid_computes_fused_pipeline (pmSt 0.6 0.4 0.05) "привет" 1 (Or.inr rfl)

/-! ### Claim C6 -/

theorem le_foldl_max : ∀ (l : List ℝ) (a : ℝ), a ≤ l.foldl max a := by
  intro l
  induction l with
  | nil => intro a; simp
  | cons x xs ih =>
    intro a
    calc a ≤ max a x := le_max_left a x
    _ ≤ xs.foldl max (max a x) := ih (max a x)

theorem maxSnd_pos (l : List (Nat × ℝ)) (h : ∀ x ∈ l, 0 < x.2) : 0 < maxSnd l := by
  cases l with
  | nil => norm_num [maxSnd]
  | cons p ps =>
    have hp := h p (List.mem_cons_self p ps)
    calc (0:ℝ) < p.2 := hp
    _ ≤ (ps.map Prod.snd).foldl max p.2 := le_foldl_max _ _

theorem lookScore_nonneg (l : List (Nat × ℝ)) (h : ∀ x ∈ l, 0 < x.2) (i : Nat) :
    0 ≤ lookScore l i := by
  cases hf : l.find? (fun p => p.1 == i) with
  | none => rw [lookScore, hf]; simp
  | some y =>
    rw [lookScore, hf]
    have := h y (List.mem_of_find?_eq_some hf)
    exact le_of_lt this

theorem lookScore_pos (l : List (Nat × ℝ)) (h : ∀ x ∈ l, 0 < x.2) (i : Nat)
    (hi : i ∈ l.map Prod.fst) : 0 < lookScore l i := by
  cases hf : l.find? (fun p => p.1 == i) with
  | none =>
    exfalso
    rcases List.mem_map.mp hi with ⟨x, hx, hxi⟩
    have := List.find?_eq_none.mp hf x hx
    simp [hxi] at this
  | some y =>
    rw [lookScore, hf]
    have := h y (List.mem_of_find?_eq_some hf)
    exact this

theorem bm25Search_mem_pos (s : BM25State) (q : String) (k : Nat) (p : Nat × ℝ)
    (hp : p ∈ bm25Search s q k) : 0 < p.2 := by
  rw [bm25Search] at hp
  have h1 := List.mem_of_mem_take hp
  have h2 := (List.perm_insertionSort _ _).mem_iff.mp h1
  rcases List.mem_filterMap.mp h2 with ⟨i, _, hi⟩
  split at hi
  · rename_i hcond
    cases hi
    exact hcond
  · simp at hi

theorem tfidfSearch_mem_pos (s : TFIDFState) (q : String) (k : Nat) (p : Nat × ℝ)
    (hp : p ∈ tfidfSearch s q k) : 0 < p.2 := by
  rw [tfidfSearch] at hp
  by_cases hq : tfidfTokenize q = []
  · simp [hq] at hp
  · rw [if_neg hq] at hp
    have h1 := List.mem_of_mem_take hp
    have h2 := (List.perm_insertionSort _ _).mem_iff.mp h1
    rcases List.mem_filterMap.mp h2 with ⟨x, _, hx⟩
    split at hx
    · rename_i hcond
      cases hx
      exact hcond
    · simp at hx

theorem fused_pos (w1 w2 : ℝ) (hw1 : 0 < w1) (hw2 : 0 < w2) (bres tres : List (Nat × ℝ))
    (hb : ∀ x ∈ bres, 0 < x.2) (ht : ∀ x ∈ tres, 0 < x.2) (i : Nat)
    (hi : i ∈ bres.map Prod.fst ++
      ((tres.map Prod.fst).filter (fun j => !((bres.map Prod.fst).contains j)))) :
    0 < w1 * (if 0 < maxSnd bres then lookScore bres i / maxSnd bres else 0) +
        w2 * (if 0 < maxSnd tres then lookScore tres i / maxSnd tres else 0) := by
  have hnB : 0 ≤ (if 0 < maxSnd bres then lookScore bres i / maxSnd bres else 0) := by
    split
    · exact div_nonneg (lookScore_nonneg bres hb i) (by linarith [maxSnd_pos bres hb])
    · exact le_refl 0
  have hnT : 0 ≤ (if 0 < maxSnd tres then lookScore tres i / maxSnd tres else 0) := by
    split
    · exact div_nonneg (lookScore_nonneg tres ht i) (by linarith [maxSnd_pos tres ht])
    · exact le_refl 0
  rcases List.mem_append.mp hi with hib | hit
  · have hpos : 0 < (if 0 < maxSnd bres then lookScore bres i / maxSnd bres else 0) := by
      rw [if_pos (maxSnd_pos bres hb)]
      exact div_pos (lookScore_pos bres hb i hib) (maxSnd_pos bres hb)
    have h1 : 0 < w1 * (if 0 < maxSnd bres then lookScore bres i / maxSnd bres else 0) :=
      mul_pos hw1 hpos
    nlinarith [mul_nonneg (le_of_lt hw2) hnT]
  · have hit2 := (List.mem_filter.mp hit).1
    have hpos : 0 < (if 0 < maxSnd tres then lookScore tres i / maxSnd tres else 0) := by
      rw [if_pos (maxSnd_pos tres ht)]
      exact div_pos (lookScore_pos tres ht i hit2) (maxSnd_pos tres ht)
    have h2 : 0 < w2 * (if 0 < maxSnd tres then lookScore tres i / maxSnd tres else 0) :=
      mul_pos hw2 hpos
    nlinarith [mul_nonneg (le_of_lt hw1) hnB]

theorem hybridPipeline_results_ok (st : RAGState) (q : String) (k : Nat)
    (hw1 : 0 < st.config.bm25_weight) (hw2 : 0 < st.config.tfidf_weight) :
    ∀ r ∈ (hybridPipeline st q k).1,
      st.config.min_score_threshold ≤ r.score ∧ 0 < r.score := by
  intro r hr
  simp only [hybridPipeline] at hr
  have h1 := List.mem_of_mem_take hr
  rcases List.mem_map.mp h1 with ⟨p, hpf, hpr⟩
  rcases List.mem_filter.mp hpf with ⟨hps, hdec⟩
  have hthr : st.config.min_score_threshold ≤ p.2.1 := of_decide_eq_true hdec
  have h2 := (List.perm_insertionSort _ _).mem_iff.mp hps
  rcases List.mem_map.mp h2 with ⟨i, hiIdx, hip⟩
  have hscorepos : 0 < p.2.1 := by
    rw [← hip]
    exact fused_pos _ _ hw1 hw2 _ _
      (fun x hx => bm25Search_mem_pos _ _ _ x hx)
      (fun x hx => tfidfSearch_mem_pos _ _ _ x hx) i hiIdx
  rw [← hpr]
  exact ⟨hthr, hscorepos⟩

theorem searchBM25_results_ok (st : RAGState) (q : String) (k : Nat) :
    ∀ r ∈ searchBM25 st q k,
      st.config.min_score_threshold ≤ r.score ∧ 0 < r.score := by
  intro r hr
  simp only [searchBM25] at hr
  have h1 := List.mem_of_mem_take hr
  rcases List.mem_map.mp h1 with ⟨p, hpf, hpr⟩
  rcases List.mem_filter.mp hpf with ⟨hps, hdec⟩
  rw [← hpr]
  exact ⟨of_decide_eq_true hdec, bm25Search_mem_pos _ _ _ p hps⟩

theorem searchTFIDF_results_ok (st : RAGState) (q : String) (k : Nat) :
    ∀ r ∈ searchTFIDF st q k,
      st.config.min_score_threshold ≤ r.score ∧ 0 < r.score := by
  intro r hr
  simp only [searchTFIDF] at hr
  have h1 := List.mem_of_mem_take hr
  rcases List.mem_map.mp h1 with ⟨p, hpf, hpr⟩
  rcases List.mem_filter.mp hpf with ⟨hps, hdec⟩
  rw [← hpr]
  exact ⟨of_decide_eq_true hdec, tfidfSearch_mem_pos _ _ _ p hps⟩

theorem searchHybrid_results_ok (st : RAGState) (q : String) (k : Nat)
    (hw1 : 0 < st.config.bm25_weight) (hw2 : 0 < st.config.tfidf_weight)
    (hc : CacheOK st) :
    ∀ r ∈ (searchHybrid st q k).1,
      st.config.min_score_threshold ≤ r.score ∧ 0 < r.score := by
  intro r hr
  rw [searchHybrid] at hr
  cases hm : (if st.config.enable_cache then
      cacheLookup st.cache (cacheKey q (effTopK st.config k) "hybrid")
    else none) with
  | some cached =>
    rw [hm] at hr
    simp only at hr
    by_cases hen : st.config.enable_cache
    · rw [if_pos hen] at hm
      rw [cacheLookup] at hm
      rcases Option.map_eq_some'.mp hm with ⟨e, he, hev⟩
      have hmem := List.mem_of_find?_eq_some he
      exact hc e hmem r (by rw [hev]; exact hr)
    · rw [if_neg hen] at hm
      cases hm
  | none =>
    rw [hm] at hr
    simp only at hr
    exact hybridPipeline_results_ok st q (effTopK st.config k) hw1 hw2 r hr

theorem c6_searchHybrid :
    searchHybrid (pmSt 0 0 0) "привет" 1 =
      ([c6Res], { pmSt 0 0 0 with cache := [(c5Key, [c6Res])] }) := by
  rw [searchHybrid]
  rw [show (if (pmSt 0 0 0).config.enable_cache then
      cacheLookup (pmSt 0 0 0).cache
        (cacheKey "привет" (effTopK (pmSt 0 0 0).config 1) "hybrid")
    else none) = none from rfl]
  exact pm_hybridPipeline 0 0 0 (by norm_num)

/-- Claim C6 (counterexample): with a configuration whose fusion
weights are both 0 and whose threshold is 0 (a configuration the
factory accepts), the hybrid search over the corpus "привет мир"
returns one result with score exactly 0 — a returned score ≤ 0, which
the claim rules out for every configuration. -/
theorem C6_zero_weight_zero_score_counterexample :
    initRAG (cfgW 0 0 0) "kb" "привет мир" 1 = some (pmSt 0 0 0) ∧
    (pmSt 0 0 0).config.min_score_threshold = 0 ∧
    ((searchHybrid (pmSt 0 0 0) "привет" 1).1).map (fun r => r.score) = [0] := by
  refine ⟨eq_some_getD _ junkState rfl, rfl, ?_⟩
  rw [c6_searchHybrid]
  show [c6Res.score] = [0]
  rw [show c6Res.score = 0 * 1 + 0 * 1 from rfl]
  norm_num

/-- Claim C6 (amended): whenever both fusion weights are strictly
positive (as in the reference defaults) and the cache satisfies the
reachability invariant `CacheOK` (cached lists hold only prior search
outputs, which meet the same bound), none of the three search methods
returns a result with score below `min_score_threshold` or ≤ 0. -/
theorem C6_search_results_above_threshold_and_positive (st : RAGState) (q : String)
    (k : Nat) (hw1 : 0 < st.config.bm25_weight) (hw2 : 0 < st.config.tfidf_weight)
    (hc : CacheOK st) :
    (∀ r ∈ searchBM25 st q k, st.config.min_score_threshold ≤ r.score ∧ 0 < r.score) ∧
    (∀ r ∈ searchTFIDF st q k, st.config.min_score_threshold ≤ r.score ∧ 0 < r.score) ∧
    (∀ r ∈ (searchHybrid st q k).1,
      st.config.min_score_threshold ≤ r.score ∧ 0 < r.score) :=
  ⟨searchBM25_results_ok st q k, searchTFIDF_results_ok st q k,
   searchHybrid_results_ok st q k hw1 hw2 hc⟩

/-- Witness for the amended C6 on the freshly loaded default engine
(weights 0.6/0.4 positive, cache empty). -/
theorem C6_search_results_above_threshold_and_positive_witness :
    (∀ r ∈ searchBM25 (pmSt 0.6 0.4 0.05) "привет" 1,
      (pmSt 0.6 0.4 0.05).config.min_score_threshold ≤ r.score ∧ 0 < r.score) ∧
    (∀ r ∈ searchTFIDF (pmSt 0.6 0.4 0.05) "привет" 1,
      (pmSt 0.6 0.4 0.05).config.min_score_threshold ≤ r.score ∧ 0 < r.score) ∧
    (∀ r ∈ (searchHybrid (pmSt 0.6 0.4 0.05) "привет" 1).1,
      (pmSt 0.6 0.4 0.05).config.min_score_threshold ≤ r.score ∧ 0 < r.score) :=
  C6_search_results_above_threshold_and_positive (pmSt 0.6 0.4 0.05) "привет" 1
    (by show (0:ℝ) < 0.6; norm_num) (by show (0:ℝ) < 0.4; norm_num)
    (by intro e he; rw [show (pmSt 0.6 0.4 0.05).cache = [] from rfl] at he; cases he)

/-! ### Claim C7 -/

/-- Claim C7 (code bug): re-running the corpus load does NOT clear the
cache.  After one cached hybrid search, `load_knowledge_base` replaces
the chunk set ("привет мир" becomes "совсем другое") and rebuilds both
indexes, yet the cache still holds the old entry; only `add_document`
clears it.  The claim / spec require the cache to be emptied on every
corpus change. -/
theorem C7_reload_keeps_stale_cache :
    loadKnowledgeBase c5StA2 "совсем другое" 1 = some c5StB ∧
    c5StA2.chunks = ["привет мир"] ∧
    c5StB.chunks = ["совсем другое"] ∧
    c5StA2.cache.length = 1 ∧
    c5StB.cache.length = 1 ∧
    (addDocument c5StB "x" none).cache = [] :=
  ⟨c5_load_B, rfl, rfl, rfl, rfl, rfl⟩

/-! ### Claim C9 -/

theorem intercalate_singleton (x : String) : String.intercalate "\n---\n" [x] = x := by
  simp [String.intercalate, String.intercalate.go]

theorem isPrefixOf_self (l : List Char) : List.isPrefixOf l l = true := by
  induction l with
  | nil => rfl
  | cons c cs ih => simp [List.isPrefixOf, ih]

theorem strContains_self (s : String) : strContains s s = true := by
  rw [strContains, hasSubstr]
  rw [List.any_eq_true]
  exact ⟨0, by simp, by simp [isPrefixOf_self]⟩

theorem getD_concat_length {α : Type} (l : List α) (x : α) (d : α) :
    (l ++ [x]).getD l.length d = x := by
  simp [List.getD_eq_getElem?_getD, List.getElem?_concat_length]

/-- Claim C9 (amended): round-trip insertion holds for a default-config
engine state whose chunks do not contain the token xyz123, provided the
freshly added chunk's post-insertion BM25 score for the query reaches
`min_score_threshold` — a proviso the original claim lacks and which
reachable states can defeat, either through the stale `doc_freqs` of
the C1 bug turning the IDF negative (the counterexample) or through a
large corpus of token-poor chunks diluting the score below 0.05: then
`retrieve("XYZ123", 1, "bm25")` returns a string containing the added
chunk's content. -/
theorem C9_roundtrip_insertion_amended (st : RAGState)
    (hcfg : st.config = defaultRAGConfig)
    (hnotok : ∀ d ∈ st.documents, "xyz123" ∉ bm25Tokenize d.content)
    (hthr : st.config.min_score_threshold ≤
      bm25Score (addDocument st "уникальная фраза XYZ123" none).bm25 "XYZ123"
        st.documents.length) :
    strContains "уникальная фраза XYZ123"
      ((retrieve (addDocument st "уникальная фраза XYZ123" none) "XYZ123" 1 "bm25").1) =
      true := by
  set A := addDocument st "уникальная фраза XYZ123" none with hA
  set N := st.documents.length with hNdef
  set newDoc : Document := ⟨"уникальная фраза XYZ123",
    genDocId "уникальная фраза XYZ123" N, ⟨none, false⟩, "dynamic", N⟩ with hnew
  have hAdocs : A.documents = st.documents ++ [newDoc] := rfl
  have hAcfg : A.config = st.config := rfl
  have htoks : A.bm25.term_freqs =
      (st.documents ++ [newDoc]).map (fun d => bm25Tokenize d.content) := rfl
  have hN : A.bm25.corpus_size = N + 1 := by
    show (st.documents ++ [newDoc]).length = N + 1
    simp
  have hqt : bm25Tokenize "XYZ123" = ["xyz123"] := by decide
  have hscore0 : ∀ i, i < N → bm25Score A.bm25 "XYZ123" i = 0 := by
    intro i hi
    rw [bm25Score, hqt, if_neg (by decide)]
    have htf : A.bm25.term_freqs.getD i [] =
        bm25Tokenize ((st.documents ++ [newDoc]).getD i defaultDoc).content := by
      rw [htoks]
      exact getD_map_lt _ _ i [] defaultDoc (by simp; omega)
    have hgetd : (st.documents ++ [newDoc]).getD i defaultDoc =
        st.documents.getD i defaultDoc := by
      simp [List.getD_eq_getElem?_getD, List.getElem?_append_left hi]
    have hmem : "xyz123" ∉ bm25Tokenize (st.documents.getD i defaultDoc).content := by
      apply hnotok
      rw [List.getD_eq_getElem st.documents defaultDoc hi]
      exact List.getElem_mem hi
    rw [htf, hgetd]
    simp only [List.foldl_cons, List.foldl_nil]
    rw [if_neg hmem]
  have hSpos : 0 < bm25Score A.bm25 "XYZ123" N := by
    have h05 : (0:ℝ) < st.config.min_score_threshold := by
      rw [hcfg]; norm_num [defaultRAGConfig]
    linarith
  have hsearch : bm25Search A.bm25 "XYZ123" 2 =
      [(N, bm25Score A.bm25 "XYZ123" N)] := by
    rw [bm25Search, hN, List.range_succ, List.filterMap_append]
    rw [show List.filterMap (fun i =>
        if 0 < bm25Score A.bm25 "XYZ123" i
        then some (i, bm25Score A.bm25 "XYZ123" i) else none) (List.range N) = []
      from List.filterMap_eq_nil_iff.mpr (by
        intro i hi
        rw [if_neg]
        rw [hscore0 i (List.mem_range.mp hi)]
        exact lt_irrefl 0)]
    simp only [List.filterMap_cons, List.filterMap_nil, if_pos hSpos, List.nil_append]
    simp [sortDesc, List.insertionSort, List.orderedInsert]
  have hexp : (if A.config.enable_query_expansion then
      expandQuery "XYZ123" A.config.max_expansion_terms else "XYZ123") = "XYZ123" := by
    rw [hAcfg, hcfg]
    decide
  have hkk : effTopK A.config 1 = 1 := by
    rw [hAcfg, hcfg]
    rfl
  have hgd : A.documents.getD N defaultDoc = newDoc := by
    rw [hAdocs]
    exact getD_concat_length st.documents newDoc defaultDoc
  have hsb : searchBM25 A "XYZ123" 1 =
      [⟨newDoc, bm25Score A.bm25 "XYZ123" N, bm25Score A.bm25 "XYZ123" N, 0,
        countKeywordMatches "XYZ123" newDoc.content⟩] := by
    rw [searchBM25, hexp, hkk, hsearch]
    simp only [List.filter_cons, List.filter_nil]
    rw [if_pos (decide_eq_true_iff.mpr (by rw [hAcfg]; exact hthr))]
    simp only [List.map_cons, List.map_nil, hgd]
    rfl
  have hne : A.documents.isEmpty = false := by
    rw [hAdocs]
    simp
  rw [retrieve, hne]
  simp only [Bool.false_eq_true, if_false]
  rw [retrieveWithScores, if_pos rfl, hsb]
  simp only [List.isEmpty_cons, if_false]
  rw [show (List.map formatResult
      [(⟨newDoc, bm25Score A.bm25 "XYZ123" N, bm25Score A.bm25 "XYZ123" N, 0,
        countKeywordMatches "XYZ123" newDoc.content⟩ : SearchResult)]) =
      ["уникальная фраза XYZ123"] from rfl]
  rw [intercalate_singleton]
  exact strContains_self _

theorem log_fourThirds_ge_quarter : (1:ℝ)/4 ≤ Real.log (4/3) := by
  have h := Real.log_le_sub_one_of_pos (show (0:ℝ) < 3/4 by norm_num)
  have h2 : Real.log ((4:ℝ)/3) = -Real.log (3/4) := by
    rw [show (4:ℝ)/3 = ((3:ℝ)/4)⁻¹ by norm_num, Real.log_inv]
  linarith

theorem c9w_score :
    bm25Score (addDocument c9emptySt "уникальная фраза XYZ123" none).bm25 "XYZ123" 0 =
      Real.log (4/3) := by
  rw [bm25Score]
  rw [show bm25Tokenize "XYZ123" = ["xyz123"] from by decide]
  rw [if_neg (by decide)]
  rw [show (addDocument c9emptySt "уникальная фраза XYZ123" none).bm25.term_freqs =
    [["уникальная", "фраза", "xyz123"]] from rfl]
  rw [show (addDocument c9emptySt "уникальная фраза XYZ123" none).bm25.doc_lengths =
    [3] from rfl]
  simp only [List.getD]
  simp [List.foldl, bm25IDF]
  rw [show (addDocument c9emptySt "уникальная фраза XYZ123" none).bm25.doc_freqs
    "xyz123" = 1 from rfl]
  rw [show (addDocument c9emptySt "уникальная фраза XYZ123" none).bm25.corpus_size = 1
    from rfl]
  rw [show (addDocument c9emptySt "уникальная фраза XYZ123" none).bm25.k1 = (1.5:ℝ)
    from rfl]
  rw [show (addDocument c9emptySt "уникальная фраза XYZ123" none).bm25.b = (0.75:ℝ)
    from rfl]
  rw [show (addDocument c9emptySt "уникальная фраза XYZ123" none).bm25.avg_doc_length =
    ((3:Nat):ℝ)/((1:Nat):ℝ) from rfl]
  norm_num

/-- Witness for the amended C9: the empty-corpus engine; the score
hypothesis is discharged by computing the concrete score ln(4/3) ≥
1/4 ≥ 0.05. -/
theorem C9_roundtrip_insertion_amended_witness :
    strContains "уникальная фраза XYZ123"
      ((retrieve (addDocument c9emptySt "уникальная фраза XYZ123" none)
        "XYZ123" 1 "bm25").1) = true :=
  C9_roundtrip_insertion_amended c9emptySt rfl
    (by intro d hd; rw [show c9emptySt.documents = [] from rfl] at hd; cases hd)
    (by
      rw [show c9emptySt.documents.length = 0 from rfl, c9w_score]
      rw [show c9emptySt.config.min_score_threshold = (0.05:ℝ) from rfl]
      have := log_fourThirds_ge_quarter
      linarith)

theorem c9_score1 :
    bm25Score c9St4.bm25 "XYZ123" 1 = Real.log (6/7) * (100/109) := by
  rw [bm25Score]
  rw [show bm25Tokenize "XYZ123" = ["xyz123"] from by decide]
  rw [if_neg (by decide)]
  rw [show c9St4.bm25.term_freqs =
    [["чистый", "корпус"], ["уникальная", "фраза", "xyz123"]] from rfl]
  rw [show c9St4.bm25.doc_lengths = [2, 3] from rfl]
  simp only [List.getD]
  simp [List.foldl, bm25IDF]
  rw [show c9St4.bm25.doc_freqs "xyz123" = 3 from rfl]
  rw [show c9St4.bm25.corpus_size = 2 from rfl]
  rw [show c9St4.bm25.k1 = (1.5:ℝ) from rfl]
  rw [show c9St4.bm25.b = (0.75:ℝ) from rfl]
  rw [show c9St4.bm25.avg_doc_length = ((5:Nat):ℝ)/((2:Nat):ℝ) from rfl]
  norm_num
  rw [mul_div_assoc]
  norm_num

theorem c9_score0 : bm25Score c9St4.bm25 "XYZ123" 0 = 0 := by
  rw [bm25Score]
  rw [show bm25Tokenize "XYZ123" = ["xyz123"] from by decide]
  rw [if_neg (by decide)]
  rw [show c9St4.bm25.term_freqs =
    [["чистый", "корпус"], ["уникальная", "фраза", "xyz123"]] from rfl]
  simp only [List.getD]
  simp [List.foldl]

theorem c9_search : bm25Search c9St4.bm25 "XYZ123" 2 = [] := by
  rw [bm25Search]
  rw [show c9St4.bm25.corpus_size = 2 from rfl]
  rw [show List.range 2 = [0, 1] from by decide]
  simp only [List.filterMap_cons, List.filterMap_nil]
  rw [if_neg (show ¬ (0:ℝ) < bm25Score c9St4.bm25 "XYZ123" 0 from by
    rw [c9_score0]; exact lt_irrefl 0)]
  rw [if_neg (show ¬ (0:ℝ) < bm25Score c9St4.bm25 "XYZ123" 1 from by
    rw [c9_score1]
    have hneg : Real.log ((6:ℝ)/7) < 0 := Real.log_neg (by norm_num) (by norm_num)
    nlinarith)]
  simp [sortDesc, List.insertionSort]

theorem c9_searchBM25 : searchBM25 c9St4 "XYZ123" 1 = [] := by
  rw [searchBM25]
  rw [show (if c9St4.config.enable_query_expansion then
      expandQuery "XYZ123" c9St4.config.max_expansion_terms else "XYZ123") = "XYZ123"
    from rfl]
  rw [show effTopK c9St4.config 1 = 1 from rfl]
  rw [show (1 * 2 : Nat) = 2 from rfl]
  rw [c9_search]
  simp

/-- Claim C9 (counterexample): a reachable default-config engine whose
current chunks do not contain the token xyz123 on which the round trip
fails.  The corpus "тест xyz123" is loaded twice and then replaced by
"чистый корпус"; the never-reset `doc_freqs` still counts xyz123 twice,
so after `addChunk("уникальная фраза XYZ123")` the stored df is 3 > N =
2, the IDF `ln((2-3+0.5)/3.5+1) = ln(6/7)` is negative, the only
matching chunk is discarded by the positive-score filter, and
`retrieve("XYZ123", 1, "bm25")` returns "" — which does not contain the
added chunk's content. -/
theorem C9_roundtrip_insertion_counterexample :
    initRAG defaultRAGConfig "kb" "тест xyz123" 1 = some c9St1 ∧
    loadKnowledgeBase c9St1 "тест xyz123" 1 = some c9St2 ∧
    loadKnowledgeBase c9St2 "чистый корпус" 1 = some c9St3 ∧
    c9St3.config = defaultRAGConfig ∧
    (c9St3.documents.all (fun d => !(bm25Tokenize d.content).elem "xyz123")) = true ∧
    (retrieve c9St4 "XYZ123" 1 "bm25").1 = "" ∧
    strContains "уникальная фраза XYZ123" ((retrieve c9St4 "XYZ123" 1 "bm25").1) =
      false := by
  have hret : (retrieve c9St4 "XYZ123" 1 "bm25").1 = "" := by
    rw [retrieve]
    rw [show c9St4.documents.isEmpty = false from rfl]
    simp only [Bool.false_eq_true, if_false]
    rw [retrieveWithScores, if_pos rfl, c9_searchBM25]
    simp
  refine ⟨eq_some_getD _ junkState rfl, eq_some_getD _ junkState rfl,
    eq_some_getD _ junkState rfl, rfl, by decide, hret, ?_⟩
  rw [hret]
  decide

end StdvBot
